import Mathlib

/-!
Shallow embedding of the Sassafras pallet
(`substrate/frame/sassafras/src/lib.rs`) and verification of the
specification claims about it.

Machine integers are modelled as `Nat` with explicit `% 2 ^ w` at the
points where the Rust code performs a lossy `as` cast.  Saturating
subtraction (`saturating_sub`, and `checked_sub` with an `unwrap_or`
fallback) maps to `Nat` truncated subtraction, with the fallback branch
made explicit where the code uses one.  The cryptographic facade
(blake2, VRF input construction, ring-VRF verification, thresholds) is
out of scope for the pallet per the specification, so it is modelled as
an explicit parameter bundle `Crypto` that every operation receives;
nothing about those functions is assumed.
-/

namespace Sassafras

/-- Ticket identifiers are 128-bit unsigned integers. -/
abbrev TicketId := Nat

/-- Randomness values are 32-byte strings, modelled as byte lists. -/
abbrev Randomness := List Nat

/-- Authority identifiers, opaque to the pallet. -/
abbrev AuthorityId := Nat

/-- Maximum value of a `u128` ticket id (`TicketId::MAX`). -/
def TicketIdMAX : Nat := 2 ^ 128 - 1

/-- Maximum value of a `u32`. -/
def u32MAX : Nat := 2 ^ 32 - 1

/-- Maximum value of a `u64`. -/
def u64MAX : Nat := 2 ^ 64 - 1

/-- Max length for segments holding unsorted tickets (`SEGMENT_MAX_SIZE`). -/
def SEGMENT_MAX_SIZE : Nat := 128

/-- Rust `div_ceil` on unsigned integers: `a / b + (a % b != 0)`.
Note that Rust panics when `b = 0`; callers in the model guard that
case explicitly where it can arise. -/
def rustDivCeil (a b : Nat) : Nat :=
  a / b + (if a % b = 0 then 0 else 1)

/-- Little-endian byte encoding of a `u64` (`u64::to_le_bytes`). -/
def toLeBytes8 (n : Nat) : List Nat :=
  [n % 256, n / 256 ^ 1 % 256, n / 256 ^ 2 % 256, n / 256 ^ 3 % 256,
   n / 256 ^ 4 % 256, n / 256 ^ 5 % 256, n / 256 ^ 6 % 256, n / 256 ^ 7 % 256]

/-- Epoch configuration (`EpochConfiguration`). -/
structure EpochConfiguration where
  redundancy_factor : Nat
  attempts_number : Nat
deriving DecidableEq

/-- Ticket body: `attempt_idx` plus opaque metadata (erased VRF output,
revealed key, ...), collapsed into a single opaque field. -/
structure TicketBody where
  attempt_idx : Nat
  extra : Nat
deriving DecidableEq

/-- Ring-VRF signature: list of VRF pre-outputs plus an opaque proof blob. -/
structure RingVrfSignature where
  outputs : List Nat
  proof : Nat
deriving DecidableEq

/-- Ticket envelope: body plus ring signature (`TicketEnvelope`). -/
structure TicketEnvelope where
  body : TicketBody
  signature : RingVrfSignature
deriving DecidableEq

/-- Tickets metadata (`TicketsMetadata`): outstanding unsorted tickets
count plus the per-epoch-tag tickets counts (`tickets_count: [u32; 2]`). -/
structure TicketsMetadata where
  unsorted_tickets_count : Nat
  tickets_count0 : Nat
  tickets_count1 : Nat
deriving DecidableEq

/-- Read `tickets_count[tag]`. -/
def TicketsMetadata.ticketsCount (m : TicketsMetadata) (tag : Nat) : Nat :=
  if tag = 0 then m.tickets_count0 else m.tickets_count1

/-- Write `tickets_count[tag] := n`. -/
def TicketsMetadata.setCount (m : TicketsMetadata) (tag n : Nat) : TicketsMetadata :=
  if tag = 0 then { m with tickets_count0 := n } else { m with tickets_count1 := n }

/-- Default (`TicketsMetadata::default()`): all counters zero. -/
def TicketsMetadata.default : TicketsMetadata :=
  { unsorted_tickets_count := 0, tickets_count0 := 0, tickets_count1 := 0 }

/-- Pallet configuration constants (`Config`). -/
structure Config where
  epochLength : Nat
deriving DecidableEq

/-- `MaxTicketsFor`: `EpochLength` clamped into `u32`
(`T::EpochLength::get().try_into().unwrap_or(u32::MAX)`). -/
def Config.maxTickets (c : Config) : Nat := min c.epochLength u32MAX

/-- The cryptographic facade consumed by the pallet.  Each field models
one primitive of `sp_consensus_sassafras::vrf` / `sp_io::hashing`; the
pallet treats them as black boxes, hence they are parameters here. -/
structure Crypto where
  /-- `sp_io::hashing::blake2_256` on a byte string. -/
  blake2b256 : List Nat → Randomness
  /-- `vrf::ticket_id_input(randomness, attempt_idx, epoch_idx)`. -/
  ticketIdInput : Randomness → Nat → Nat → Nat
  /-- `vrf::make_ticket_id(input, output)`. -/
  makeTicketId : Nat → Nat → TicketId
  /-- `vrf::ticket_body_sign_data(body, ticket_id_input)`. -/
  ticketBodySignData : TicketBody → Nat → Nat
  /-- `signature.ring_vrf_verify(sign_data, verifier)`. -/
  ringVrfVerify : RingVrfSignature → Nat → Nat → Bool
  /-- `ticket_id_threshold(redundancy, epoch_length, attempts, validators)`. -/
  ticketIdThreshold : Nat → Nat → Nat → Nat → TicketId
  /-- `ring_ctx.verifier_data(&pks)`. -/
  verifierData : Nat → List AuthorityId → Nat
  /-- `vrf::slot_claim_input(randomness, slot, epoch_index)`. -/
  slotClaimInput : Randomness → Nat → Nat → Nat
  /-- `vrf_output.make_bytes::<32>(RANDOMNESS_VRF_CONTEXT, input)`. -/
  makeBytes : Nat → Nat → Randomness
  /-- SCALE encoding of a ticket batch (`tickets.using_encoded`). -/
  encodeTickets : List TicketEnvelope → List Nat

/-- The pallet's storage cells, gathered into one state record.  Maps
(`TicketsIds`, `TicketsData`, `UnsortedSegments`) are modelled as total
functions with the storage's default for absent keys. -/
structure PalletState where
  epochIndex : Nat
  genesisSlot : Nat
  currentSlot : Nat
  currentRandomness : Randomness
  nextRandomness : Randomness
  randomnessAccumulator : Randomness
  epochConfig : EpochConfiguration
  nextEpochConfig : Option EpochConfiguration
  pendingEpochConfigChange : Option EpochConfiguration
  ticketsMeta : TicketsMetadata
  ticketsIds : Nat → Nat → Option TicketId
  ticketsData : TicketId → Option TicketBody
  unsortedSegments : Nat → List TicketId
  sortedCandidates : List TicketId
  ringContext : Option Nat
  ringVerifierData : Option Nat
  claimTemporaryData : Option Nat
  blockNumber : Nat
  authorities : List AuthorityId
  nextAuthorities : List AuthorityId
  digest : List (Randomness × List AuthorityId × Option EpochConfiguration)

/-- `epoch_start(epoch_index) = epoch_index * EpochLength + GenesisSlot`. -/
def epochStart (c : Config) (st : PalletState) (epochIndex : Nat) : Nat :=
  epochIndex * c.epochLength + st.genesisSlot

/-- `current_epoch_start()`. -/
def currentEpochStart (c : Config) (st : PalletState) : Nat :=
  epochStart c st st.epochIndex

/-- `slot_index(slot)`: `slot.checked_sub(current_epoch_start()).unwrap_or(u64::MAX)`. -/
def slotIndexOf (c : Config) (st : PalletState) (slot : Nat) : Nat :=
  if slot < currentEpochStart c st then u64MAX else slot - currentEpochStart c st

/-- `current_slot_index()`. -/
def currentSlotIndex (c : Config) (st : PalletState) : Nat :=
  slotIndexOf c st st.currentSlot

/-- `should_end_epoch(block_num)`. -/
def shouldEndEpoch (c : Config) (st : PalletState) : Bool :=
  decide (1 < st.blockNumber) && decide (c.epochLength ≤ currentSlotIndex c st)

/-- Remove one key from a `TicketsData`-style map (`TicketsData::remove`). -/
def removeData (d : TicketId → Option TicketBody) (id : TicketId) :
    TicketId → Option TicketBody :=
  fun t => if t = id then none else d t

/-- Accumulator threaded through the `sort_tickets` segment loop:
the storage cells it touches plus the local variables of the function. -/
structure SortAcc where
  ticketsData : TicketId → Option TicketBody
  unsortedSegments : Nat → List TicketId
  meta : TicketsMetadata
  candidates : List TicketId
  upperBound : TicketId
  requireSort : Bool
  segCount : Nat

/-- Inner `for ticket_id in segment` loop of `sort_tickets`: push ids
below the upper bound onto the candidates, remove the data of the rest. -/
def pushSegment (upperBound : TicketId) :
    List TicketId → List TicketId → (TicketId → Option TicketBody) →
    List TicketId × (TicketId → Option TicketBody)
  | [], cands, data => (cands, data)
  | id :: rest, cands, data =>
    if id < upperBound then
      pushSegment upperBound rest (cands ++ [id]) data
    else
      pushSegment upperBound rest cands (removeData data id)

/-- One iteration of the `for _ in 0..max_segments` loop in `sort_tickets`:
take the highest-indexed segment, filter it against the upper bound, and
sort-truncate the candidates if they exceed `max_tickets`.  (The Rust
indexing `sorted_candidates[max_tickets - 1]` is total here via `getD`;
in Rust it cannot be reached with `max_tickets = 0`, which would panic.) -/
def sortSegmentStep (maxTickets : Nat) (acc : SortAcc) : SortAcc :=
  let segIdx := acc.segCount - 1
  let segment := acc.unsortedSegments segIdx
  let segs := fun k => if k = segIdx then [] else acc.unsortedSegments k
  let meta := { acc.meta with
    unsorted_tickets_count := acc.meta.unsorted_tickets_count - segment.length }
  let res := pushSegment acc.upperBound segment acc.candidates acc.ticketsData
  let cands := res.1
  let data := res.2
  if maxTickets < cands.length then
    let sorted := List.insertionSort (· ≤ ·) cands
    let evicted := sorted.drop maxTickets
    let data := evicted.foldl removeData data
    let kept := sorted.take maxTickets
    { ticketsData := data
      unsortedSegments := segs
      meta := meta
      candidates := kept
      upperBound := kept.getD (maxTickets - 1) TicketIdMAX
      requireSort := false
      segCount := segIdx }
  else
    { ticketsData := data
      unsortedSegments := segs
      meta := meta
      candidates := cands
      upperBound := acc.upperBound
      requireSort := acc.requireSort
      segCount := segIdx }

/-- The `for _ in 0..max_segments` loop of `sort_tickets`. -/
def sortLoop (maxTickets : Nat) : Nat → SortAcc → SortAcc
  | 0, acc => acc
  | n + 1, acc => sortLoop maxTickets n (sortSegmentStep maxTickets acc)

/-- The initial loop accumulator of `sort_tickets`: the taken sorted
candidates, the upper bound
`sorted_candidates.get(max_tickets - 1).unwrap_or(&TicketId::MAX)`, the
pending-sort flag `max_segments != 0`, and the segment count. -/
def sortAcc0 (c : Config) (maxSegments : Nat) (st : PalletState)
    (meta : TicketsMetadata) : SortAcc :=
  let segCount := rustDivCeil meta.unsorted_tickets_count SEGMENT_MAX_SIZE
  let maxSegs := min maxSegments segCount
  { ticketsData := st.ticketsData
    unsortedSegments := st.unsortedSegments
    meta := meta
    candidates := st.sortedCandidates
    upperBound := st.sortedCandidates.getD (c.maxTickets - 1) TicketIdMAX
    requireSort := maxSegs ≠ 0
    segCount := segCount }

/-- Tail of `sort_tickets` after the segment loop: final sort when no
intermediate truncation ran, then either write the candidates into the
tickets ids map (sorting complete) or persist the partial result. -/
def sortFinish (c : Config) (epochTag : Nat) (st1 : PalletState)
    (acc : SortAcc) : PalletState × TicketsMetadata :=
  let cands := if acc.requireSort then List.insertionSort (· ≤ ·) acc.candidates
               else acc.candidates
  if acc.meta.unsorted_tickets_count = 0 then
    -- write candidates into the next epoch tickets ids map
    let ids := fun tag i =>
      if tag = epochTag ∧ (cands.get? i).isSome then cands.get? i
      else st1.ticketsIds tag i
    ({ st1 with
       ticketsData := acc.ticketsData
       unsortedSegments := acc.unsortedSegments
       ticketsIds := ids },
     acc.meta.setCount epochTag cands.length)
  else
    -- keep the partial result for next calls (`BoundedVec::truncate_from`)
    ({ st1 with
       ticketsData := acc.ticketsData
       unsortedSegments := acc.unsortedSegments
       sortedCandidates := cands.take c.maxTickets },
     acc.meta)

/-- `sort_tickets(max_segments, epoch_tag, metadata)`.  Returns the new
storage state together with the (caller-owned, not yet persisted)
metadata, exactly as the Rust function mutates its `&mut TicketsMetadata`
argument while only the caller decides whether to write `TicketsMeta`.
The candidates are taken (`SortedCandidates::take()`), the loop consumes
at most `min max_segments segment_count` segments, and `sortFinish`
writes the outcome. -/
def sortTickets (c : Config) (maxSegments : Nat) (epochTag : Nat)
    (st : PalletState) (meta : TicketsMetadata) : PalletState × TicketsMetadata :=
  let maxSegs := min maxSegments (rustDivCeil meta.unsorted_tickets_count SEGMENT_MAX_SIZE)
  sortFinish c epochTag { st with sortedCandidates := [] }
    (sortLoop c.maxTickets maxSegs (sortAcc0 c maxSegments st meta))

/-- The `while !tickets.is_empty()` loop of `append_tickets`: bin-pack the
batch into segments starting at the current segment cursor. -/
def appendLoop (segIdx : Nat) (meta : TicketsMetadata)
    (segs : Nat → List TicketId) :
    List TicketId → TicketsMetadata × (Nat → List TicketId)
  | [] => (meta, segs)
  | t :: ts =>
    let tickets := t :: ts
    let rem := meta.unsorted_tickets_count % SEGMENT_MAX_SIZE
    let todo := min tickets.length (SEGMENT_MAX_SIZE - rem)
    let segment := ((segs segIdx) ++ tickets.take todo).take SEGMENT_MAX_SIZE
    let segs1 := fun k => if k = segIdx then segment else segs k
    let meta1 := { meta with
      unsorted_tickets_count := meta.unsorted_tickets_count + todo }
    appendLoop (segIdx + 1) meta1 segs1 (tickets.drop todo)
termination_by l => l.length
decreasing_by
  simp only [List.length_drop]
  have h1 : 1 ≤ min (t :: ts).length (SEGMENT_MAX_SIZE - meta.unsorted_tickets_count % SEGMENT_MAX_SIZE) := by
    refine le_min (by simp) ?_
    have : meta.unsorted_tickets_count % SEGMENT_MAX_SIZE < SEGMENT_MAX_SIZE :=
      Nat.mod_lt _ (by norm_num [SEGMENT_MAX_SIZE])
    omega
  simp only [List.length_cons] at h1 ⊢
  omega

/-- `append_tickets(tickets)`. -/
def appendTickets (st : PalletState) (tickets : List TicketId) : PalletState :=
  let meta := st.ticketsMeta
  let segIdx := meta.unsorted_tickets_count / SEGMENT_MAX_SIZE
  let res := appendLoop segIdx meta st.unsortedSegments tickets
  { st with ticketsMeta := res.1, unsortedSegments := res.2 }

/-- `Pays` for the dispatch result. -/
inductive Pays
  | Yes
  | No
deriving DecidableEq

/-- One iteration of the envelope loop in `submit_tickets`: the
accumulator carries the `TicketsData` map and the local `valid_tickets`
vector. -/
def processTicket (cr : Crypto) (verifier threshold : Nat)
    (randomness : Randomness) (epochIdx : Nat)
    (acc : (TicketId → Option TicketBody) × List TicketId)
    (ticket : TicketEnvelope) : (TicketId → Option TicketBody) × List TicketId :=
  let input := cr.ticketIdInput randomness ticket.body.attempt_idx epochIdx
  match ticket.signature.outputs.head? with
  | none => acc
  | some out =>
    let ticketId := cr.makeTicketId input out
    if threshold ≤ ticketId then acc
    else if (acc.1 ticketId).isSome then acc
    else if cr.ringVrfVerify ticket.signature
        (cr.ticketBodySignData ticket.body input) verifier then
      (fun t => if t = ticketId then some ticket.body else acc.1 t,
       acc.2 ++ [ticketId])
    else acc

/-- The ticket admission threshold computed by `submit_tickets`:
`ticket_id_threshold(next_config.redundancy_factor, epoch_length as
u32, next_config.attempts_number, next_authorities.len())`, where the
next config falls back to the current one. -/
def submitThreshold (c : Config) (cr : Crypto) (st : PalletState) : TicketId :=
  let nextConfig := st.nextEpochConfig.getD st.epochConfig
  cr.ticketIdThreshold nextConfig.redundancy_factor
    (c.epochLength % 2 ^ 32) nextConfig.attempts_number st.nextAuthorities.length

/-- `submit_tickets(origin, tickets)` dispatch body (after `ensure_none`).
The only hard error is the uninitialized ring verifier. -/
def submitTickets (c : Config) (cr : Crypto) (st : PalletState)
    (tickets : List TicketEnvelope) : Except String (Pays × PalletState) :=
  match st.ringVerifierData with
  | none => .error "Ring verifier key not initialized"
  | some verifier =>
    let threshold := submitThreshold c cr st
    let randomness := st.nextRandomness
    let epochIdx := st.epochIndex + 1
    let res := tickets.foldl
      (processTicket cr verifier threshold randomness epochIdx)
      (st.ticketsData, [])
    let st1 := { st with ticketsData := res.1 }
    let st2 := if res.2 ≠ [] then appendTickets st1 res.2 else st1
    .ok (Pays.No, st2)

/-- The `valid_tickets` vector collected by the envelope loop of
`submit_tickets` (empty when the verifier is uninitialized). -/
def submitValidTickets (c : Config) (cr : Crypto) (st : PalletState)
    (tickets : List TicketEnvelope) : List TicketId :=
  match st.ringVerifierData with
  | none => []
  | some verifier =>
    (tickets.foldl
      (processTicket cr verifier (submitThreshold c cr st)
        st.nextRandomness (st.epochIndex + 1))
      (st.ticketsData, [])).2

/-- Transaction sources (`TransactionSource`). -/
inductive TransactionSource
  | Local
  | InBlock
  | External
deriving DecidableEq

/-- Pallet calls. -/
inductive PalletCall
  | submitTickets (tickets : List TicketEnvelope)
  | planConfigChange (config : EpochConfiguration)

/-- Outcome of `validate_unsigned`. -/
inductive TransactionValidityResult
  | invalidCall
  | badSigner
  | stale
  | valid (priority : Nat) (longevity : Nat) (provides : List Nat) (propagate : Bool)
deriving DecidableEq

/-- `validate_unsigned(source, call)`. -/
def validateUnsigned (c : Config) (cr : Crypto) (source : TransactionSource)
    (call : PalletCall) (st : PalletState) : TransactionValidityResult :=
  match call with
  | .planConfigChange _ => .invalidCall
  | .submitTickets tickets =>
    if source = .External then .badSigner
    else
      let epochLength := c.epochLength
      let currentSlotIdx := currentSlotIndex c st
      if epochLength / 2 < currentSlotIdx then .stale
      else
        .valid u64MAX (epochLength / 2 - currentSlotIdx)
          (cr.blake2b256 (cr.encodeTickets tickets)) true

/-- `update_ring_verifier(authorities)`: silently skipped if the ring
context is not initialized. -/
def updateRingVerifier (cr : Crypto) (st : PalletState)
    (authorities : List AuthorityId) : PalletState :=
  match st.ringContext with
  | none => st
  | some ctx =>
    { st with ringVerifierData := some (cr.verifierData ctx authorities) }

/-- One iteration of the `for idx in 0..tickets_count` removal loops:
look the index up in `TicketsIds` and remove the body if present. -/
def removeListedStep (ids : Nat → Nat → Option TicketId) (tag : Nat)
    (d : TicketId → Option TicketBody) (i : Nat) : TicketId → Option TicketBody :=
  match ids tag i with
  | some id => removeData d id
  | none => d

/-- The removal loop `for idx in 0..count { if let Some(id) =
TicketsIds::get((tag, idx)) { TicketsData::remove(id) } }`. -/
def removeListed (ids : Nat → Nat → Option TicketId) (tag count : Nat)
    (d : TicketId → Option TicketBody) : TicketId → Option TicketBody :=
  (List.range count).foldl (removeListedStep ids tag) d

/-- `reset_tickets_data()`. -/
def resetTicketsData (st : PalletState) : PalletState :=
  let meta := st.ticketsMeta
  -- remove even-epoch data
  let data0 := removeListed st.ticketsIds 0 meta.tickets_count0 st.ticketsData
  -- remove odd-epoch data
  let data1 := removeListed st.ticketsIds 1 meta.tickets_count1 data0
  -- remove all unsorted tickets segments
  let segCount := rustDivCeil meta.unsorted_tickets_count SEGMENT_MAX_SIZE
  let segs := fun k => if k < segCount then [] else st.unsortedSegments k
  { st with
    ticketsData := data1
    unsortedSegments := segs
    sortedCandidates := []
    ticketsMeta := TicketsMetadata.default }

/-- `update_epoch_randomness(next_epoch_index)`: promote
`NextRandomness` into `CurrentRandomness`, then fold the accumulator,
the promoted randomness and the little-endian next epoch index through
blake2-256 into the new `NextRandomness`. -/
def updateEpochRandomness (cr : Crypto) (st : PalletState)
    (nextEpochIndex : Nat) : PalletState × Randomness :=
  let currEpochRandomness := st.nextRandomness
  let buf := st.randomnessAccumulator ++ currEpochRandomness ++ toLeBytes8 nextEpochIndex
  let nextRandomness := cr.blake2b256 buf
  ({ st with
     currentRandomness := currEpochRandomness
     nextRandomness := nextRandomness }, nextRandomness)

/-- `deposit_slot_randomness(randomness)`. -/
def depositSlotRandomness (cr : Crypto) (st : PalletState)
    (randomness : Randomness) : PalletState :=
  { st with randomnessAccumulator :=
      cr.blake2b256 (st.randomnessAccumulator ++ randomness) }

/-- Epoch index update step of `enact_epoch_change`: compute the slot
index of the candidate epoch, detect skipped epochs (resetting all
tickets data in that case) and return the resulting epoch index. -/
def enactEpochIndex (c : Config) (st : PalletState) : PalletState × Nat :=
  let epochIdx := st.epochIndex + 1
  let slotIdx := st.currentSlot - epochStart c st epochIdx
  if c.epochLength ≤ slotIdx then
    (resetTicketsData st, epochIdx + slotIdx / c.epochLength)
  else (st, epochIdx)

/-- Config promotion step of `enact_epoch_change`: take
`NextEpochConfig` into `EpochConfig`, take `PendingEpochConfigChange`
into `NextEpochConfig`; the taken pending config is returned for the
next epoch descriptor. -/
def enactConfigPromotion (st : PalletState) :
    PalletState × Option EpochConfiguration :=
  let st := match st.nextEpochConfig with
    | some config => { st with epochConfig := config, nextEpochConfig := none }
    | none => { st with nextEpochConfig := none }
  let nextConfig := st.pendingEpochConfigChange
  let st := { st with pendingEpochConfigChange := none }
  match nextConfig with
  | some nc => ({ st with nextEpochConfig := some nc }, nextConfig)
  | none => (st, nextConfig)

/-- Tickets maintenance tail of `enact_epoch_change`: optionally finish
sorting the residual unsorted tickets, then clear the previous epoch
half's counter and ticket bodies.  Note that the updated metadata is
persisted into `TicketsMeta` only inside the clearing branch, exactly
as in the source. -/
def enactTickets (c : Config) (st : PalletState) (ticketsMetadata : TicketsMetadata)
    (epochTag : Nat) : PalletState :=
  let stS :=
    if ticketsMetadata.unsorted_tickets_count ≠ 0 then
      sortTickets c u32MAX epochTag st ticketsMetadata
    else (st, ticketsMetadata)
  let st := stS.1
  let ticketsMetadata := stS.2
  let nextEpochTag := 1 - epochTag
  let prevEpochTicketsCount := ticketsMetadata.ticketsCount nextEpochTag
  if prevEpochTicketsCount ≠ 0 then
    let data := removeListed st.ticketsIds nextEpochTag prevEpochTicketsCount st.ticketsData
    { st with
      ticketsData := data
      ticketsMeta := ticketsMetadata.setCount nextEpochTag 0 }
  else st

/-- Head of `enact_epoch_change`: ring verifier rebuild when the next
authorities differ, then the authorities storage update. -/
def enactPrelim (cr : Crypto)
    (authorities nextAuthorities : List AuthorityId)
    (st : PalletState) : PalletState :=
  let st := if nextAuthorities ≠ authorities then
      updateRingVerifier cr st nextAuthorities else st
  { st with
    authorities := authorities
    nextAuthorities := nextAuthorities }

/-- `enact_epoch_change(authorities, next_authorities)`, assembled from
its phases in source order (see `enactPrelim`, `enactEpochIndex`,
`updateEpochRandomness`, `enactConfigPromotion`, `enactTickets`). -/
def enactEpochChange (c : Config) (cr : Crypto)
    (authorities nextAuthorities : List AuthorityId)
    (st : PalletState) : PalletState :=
  let st := enactPrelim cr authorities nextAuthorities st
  let p := enactEpochIndex c st
  let ticketsMetadata := p.1.ticketsMeta
  let st := { p.1 with epochIndex := p.2 }
  let q := updateEpochRandomness cr st (p.2 + 1)
  let r := enactConfigPromotion q.1
  let st := { r.1 with digest := r.1.digest ++ [(q.2, nextAuthorities, r.2)] }
  enactTickets c st ticketsMetadata (p.2 % 2)

/-- Helper used by `slot_ticket_id`: the outside-in ticket index for a
slot index, including the final `as u32` cast. -/
def getTicketIdx (epochLen slotIdx : Nat) : Nat :=
  (if slotIdx < epochLen / 2 then 2 * slotIdx + 1
   else 2 * (epochLen - (slotIdx + 1))) % 2 ^ 32

/-- `slot_ticket_id(slot)`.  Returns the looked-up ticket id and the
possibly updated state (the next-epoch branch may run a final sort and
persist the metadata). -/
def slotTicketId (c : Config) (slot : Nat) (st : PalletState) :
    Option TicketId × PalletState :=
  if st.blockNumber < 1 then (none, st)
  else
    let epochIdx := st.epochIndex
    let epochLen := c.epochLength
    let slotIdx := slotIndexOf c st slot
    let ticketsMeta := st.ticketsMeta
    let epochTag := epochIdx % 2
    if epochLen ≤ slotIdx ∧ slotIdx < 2 * epochLen then
      let epochTag := 1 - epochTag
      let slotIdx := slotIdx - epochLen
      let stM :=
        if ticketsMeta.unsorted_tickets_count ≠ 0 then
          let res := sortTickets c u32MAX epochTag st ticketsMeta
          ({ res.1 with ticketsMeta := res.2 }, res.2)
        else (st, ticketsMeta)
      let st := stM.1
      let ticketsMeta := stM.2
      let ticketIdx := getTicketIdx epochLen slotIdx
      if ticketIdx < ticketsMeta.ticketsCount epochTag then
        (st.ticketsIds epochTag ticketIdx, st)
      else (none, st)
    else if 2 * epochLen ≤ slotIdx then (none, st)
    else
      let ticketIdx := getTicketIdx epochLen slotIdx
      if ticketIdx < ticketsMeta.ticketsCount epochTag then
        (st.ticketsIds epochTag ticketIdx, st)
      else (none, st)

/-- Slots left before the epoch boundary as computed by `on_finalize`:
`epoch_length.checked_sub(current_slot_idx).unwrap_or(1)`.  Note the
fallback applies only when the subtraction underflows, i.e. when the
index strictly exceeds the epoch length. -/
def finalizeSlotsLeft (c : Config) (st : PalletState) : Nat :=
  let currentSlotIdx := currentSlotIndex c st
  if currentSlotIdx ≤ c.epochLength then c.epochLength - currentSlotIdx else 1

/-- The divisor `SEGMENT_MAX_SIZE * slots_left as u32` of the
`div_ceil` in `on_finalize` (a `u32` multiplication). -/
def finalizeSortDivisor (c : Config) (st : PalletState) : Nat :=
  SEGMENT_MAX_SIZE * (finalizeSlotsLeft c st % 2 ^ 32) % 2 ^ 32

/-- `on_finalize`.  Returns `none` where the Rust code panics: a missing
`ClaimTemporaryData`, or the division by zero reached when the sort-pass
divisor is zero (`u32::div_ceil` panics on a zero divisor). -/
def onFinalize (c : Config) (cr : Crypto) (st : PalletState) :
    Option PalletState :=
  match st.claimTemporaryData with
  | none => none
  | some randomnessOutput =>
    let randomnessInput :=
      cr.slotClaimInput st.currentRandomness st.currentSlot st.epochIndex
    let randomness := cr.makeBytes randomnessOutput randomnessInput
    let st := { st with claimTemporaryData := none }
    let st := depositSlotRandomness cr st randomness
    let epochLength := c.epochLength
    let currentSlotIdx := currentSlotIndex c st
    if epochLength / 2 ≤ currentSlotIdx then
      let metadata := st.ticketsMeta
      if metadata.unsorted_tickets_count ≠ 0 then
        let epochTag := (st.epochIndex + 1) % 2
        let divisor := finalizeSortDivisor c st
        if divisor = 0 then none
        else
          let res := sortTickets c
            (rustDivCeil metadata.unsorted_tickets_count divisor)
            epochTag st metadata
          some { res.1 with ticketsMeta := res.2 }
      else some st
    else some st


/-! Concrete fixtures used by witnesses and counterexamples. -/

/-- A concrete instance of the cryptographic facade, used only to
instantiate universally quantified theorems at a computable point. -/
def cryptoZ : Crypto where
  blake2b256 := fun l => [l.length % 256]
  ticketIdInput := fun _ attempt epochIdx => attempt + epochIdx
  makeTicketId := fun input output => input + output
  ticketBodySignData := fun _ input => input
  ringVrfVerify := fun _ _ _ => true
  ticketIdThreshold := fun _ _ _ _ => 1000
  verifierData := fun _ _ => 0
  slotClaimInput := fun _ _ _ => 0
  makeBytes := fun _ _ => [0]
  encodeTickets := fun _ => []

/-- A baseline concrete pallet state. -/
def stZero : PalletState where
  epochIndex := 0
  genesisSlot := 0
  currentSlot := 0
  currentRandomness := []
  nextRandomness := []
  randomnessAccumulator := []
  epochConfig := { redundancy_factor := 1, attempts_number := 1 }
  nextEpochConfig := none
  pendingEpochConfigChange := none
  ticketsMeta := TicketsMetadata.default
  ticketsIds := fun _ _ => none
  ticketsData := fun _ => none
  unsortedSegments := fun _ => []
  sortedCandidates := []
  ringContext := none
  ringVerifierData := none
  claimTemporaryData := none
  blockNumber := 1
  authorities := []
  nextAuthorities := []
  digest := []

/-- Frame lemma: `sortTickets_fst` leaves `epochIndex` unchanged. -/
@[simp] theorem sortTickets_fst_epochIndex (c : Config) (ms tag : Nat) (st : PalletState) (meta : TicketsMetadata) :
    (sortTickets c ms tag st meta).1.epochIndex = st.epochIndex := by
  unfold sortTickets sortFinish; dsimp only; split <;> rfl

/-- Frame lemma: `sortTickets_fst` leaves `genesisSlot` unchanged. -/
@[simp] theorem sortTickets_fst_genesisSlot (c : Config) (ms tag : Nat) (st : PalletState) (meta : TicketsMetadata) :
    (sortTickets c ms tag st meta).1.genesisSlot = st.genesisSlot := by
  unfold sortTickets sortFinish; dsimp only; split <;> rfl

/-- Frame lemma: `sortTickets_fst` leaves `currentSlot` unchanged. -/
@[simp] theorem sortTickets_fst_currentSlot (c : Config) (ms tag : Nat) (st : PalletState) (meta : TicketsMetadata) :
    (sortTickets c ms tag st meta).1.currentSlot = st.currentSlot := by
  unfold sortTickets sortFinish; dsimp only; split <;> rfl

/-- Frame lemma: `sortTickets_fst` leaves `currentRandomness` unchanged. -/
@[simp] theorem sortTickets_fst_currentRandomness (c : Config) (ms tag : Nat) (st : PalletState) (meta : TicketsMetadata) :
    (sortTickets c ms tag st meta).1.currentRandomness = st.currentRandomness := by
  unfold sortTickets sortFinish; dsimp only; split <;> rfl

/-- Frame lemma: `sortTickets_fst` leaves `nextRandomness` unchanged. -/
@[simp] theorem sortTickets_fst_nextRandomness (c : Config) (ms tag : Nat) (st : PalletState) (meta : TicketsMetadata) :
    (sortTickets c ms tag st meta).1.nextRandomness = st.nextRandomness := by
  unfold sortTickets sortFinish; dsimp only; split <;> rfl

/-- Frame lemma: `sortTickets_fst` leaves `randomnessAccumulator` unchanged. -/
@[simp] theorem sortTickets_fst_randomnessAccumulator (c : Config) (ms tag : Nat) (st : PalletState) (meta : TicketsMetadata) :
    (sortTickets c ms tag st meta).1.randomnessAccumulator = st.randomnessAccumulator := by
  unfold sortTickets sortFinish; dsimp only; split <;> rfl

/-- Frame lemma: `sortTickets_fst` leaves `epochConfig` unchanged. -/
@[simp] theorem sortTickets_fst_epochConfig (c : Config) (ms tag : Nat) (st : PalletState) (meta : TicketsMetadata) :
    (sortTickets c ms tag st meta).1.epochConfig = st.epochConfig := by
  unfold sortTickets sortFinish; dsimp only; split <;> rfl

/-- Frame lemma: `sortTickets_fst` leaves `nextEpochConfig` unchanged. -/
@[simp] theorem sortTickets_fst_nextEpochConfig (c : Config) (ms tag : Nat) (st : PalletState) (meta : TicketsMetadata) :
    (sortTickets c ms tag st meta).1.nextEpochConfig = st.nextEpochConfig := by
  unfold sortTickets sortFinish; dsimp only; split <;> rfl

/-- Frame lemma: `sortTickets_fst` leaves `pendingEpochConfigChange` unchanged. -/
@[simp] theorem sortTickets_fst_pendingEpochConfigChange (c : Config) (ms tag : Nat) (st : PalletState) (meta : TicketsMetadata) :
    (sortTickets c ms tag st meta).1.pendingEpochConfigChange = st.pendingEpochConfigChange := by
  unfold sortTickets sortFinish; dsimp only; split <;> rfl

/-- Frame lemma: `sortTickets_fst` leaves `ticketsMeta` unchanged. -/
@[simp] theorem sortTickets_fst_ticketsMeta (c : Config) (ms tag : Nat) (st : PalletState) (meta : TicketsMetadata) :
    (sortTickets c ms tag st meta).1.ticketsMeta = st.ticketsMeta := by
  unfold sortTickets sortFinish; dsimp only; split <;> rfl

/-- Frame lemma: `sortTickets_fst` leaves `ringContext` unchanged. -/
@[simp] theorem sortTickets_fst_ringContext (c : Config) (ms tag : Nat) (st : PalletState) (meta : TicketsMetadata) :
    (sortTickets c ms tag st meta).1.ringContext = st.ringContext := by
  unfold sortTickets sortFinish; dsimp only; split <;> rfl

/-- Frame lemma: `sortTickets_fst` leaves `ringVerifierData` unchanged. -/
@[simp] theorem sortTickets_fst_ringVerifierData (c : Config) (ms tag : Nat) (st : PalletState) (meta : TicketsMetadata) :
    (sortTickets c ms tag st meta).1.ringVerifierData = st.ringVerifierData := by
  unfold sortTickets sortFinish; dsimp only; split <;> rfl

/-- Frame lemma: `sortTickets_fst` leaves `claimTemporaryData` unchanged. -/
@[simp] theorem sortTickets_fst_claimTemporaryData (c : Config) (ms tag : Nat) (st : PalletState) (meta : TicketsMetadata) :
    (sortTickets c ms tag st meta).1.claimTemporaryData = st.claimTemporaryData := by
  unfold sortTickets sortFinish; dsimp only; split <;> rfl

/-- Frame lemma: `sortTickets_fst` leaves `blockNumber` unchanged. -/
@[simp] theorem sortTickets_fst_blockNumber (c : Config) (ms tag : Nat) (st : PalletState) (meta : TicketsMetadata) :
    (sortTickets c ms tag st meta).1.blockNumber = st.blockNumber := by
  unfold sortTickets sortFinish; dsimp only; split <;> rfl

/-- Frame lemma: `sortTickets_fst` leaves `authorities` unchanged. -/
@[simp] theorem sortTickets_fst_authorities (c : Config) (ms tag : Nat) (st : PalletState) (meta : TicketsMetadata) :
    (sortTickets c ms tag st meta).1.authorities = st.authorities := by
  unfold sortTickets sortFinish; dsimp only; split <;> rfl

/-- Frame lemma: `sortTickets_fst` leaves `nextAuthorities` unchanged. -/
@[simp] theorem sortTickets_fst_nextAuthorities (c : Config) (ms tag : Nat) (st : PalletState) (meta : TicketsMetadata) :
    (sortTickets c ms tag st meta).1.nextAuthorities = st.nextAuthorities := by
  unfold sortTickets sortFinish; dsimp only; split <;> rfl

/-- Frame lemma: `sortTickets_fst` leaves `digest` unchanged. -/
@[simp] theorem sortTickets_fst_digest (c : Config) (ms tag : Nat) (st : PalletState) (meta : TicketsMetadata) :
    (sortTickets c ms tag st meta).1.digest = st.digest := by
  unfold sortTickets sortFinish; dsimp only; split <;> rfl

/-- Frame lemma: `updateRingVerifier` leaves `epochIndex` unchanged. -/
@[simp] theorem updateRingVerifier_epochIndex (cr : Crypto) (st : PalletState) (a : List AuthorityId) :
    (updateRingVerifier cr st a).epochIndex = st.epochIndex := by
  unfold updateRingVerifier; split <;> rfl

/-- Frame lemma: `updateRingVerifier` leaves `genesisSlot` unchanged. -/
@[simp] theorem updateRingVerifier_genesisSlot (cr : Crypto) (st : PalletState) (a : List AuthorityId) :
    (updateRingVerifier cr st a).genesisSlot = st.genesisSlot := by
  unfold updateRingVerifier; split <;> rfl

/-- Frame lemma: `updateRingVerifier` leaves `currentSlot` unchanged. -/
@[simp] theorem updateRingVerifier_currentSlot (cr : Crypto) (st : PalletState) (a : List AuthorityId) :
    (updateRingVerifier cr st a).currentSlot = st.currentSlot := by
  unfold updateRingVerifier; split <;> rfl

/-- Frame lemma: `updateRingVerifier` leaves `currentRandomness` unchanged. -/
@[simp] theorem updateRingVerifier_currentRandomness (cr : Crypto) (st : PalletState) (a : List AuthorityId) :
    (updateRingVerifier cr st a).currentRandomness = st.currentRandomness := by
  unfold updateRingVerifier; split <;> rfl

/-- Frame lemma: `updateRingVerifier` leaves `nextRandomness` unchanged. -/
@[simp] theorem updateRingVerifier_nextRandomness (cr : Crypto) (st : PalletState) (a : List AuthorityId) :
    (updateRingVerifier cr st a).nextRandomness = st.nextRandomness := by
  unfold updateRingVerifier; split <;> rfl

/-- Frame lemma: `updateRingVerifier` leaves `randomnessAccumulator` unchanged. -/
@[simp] theorem updateRingVerifier_randomnessAccumulator (cr : Crypto) (st : PalletState) (a : List AuthorityId) :
    (updateRingVerifier cr st a).randomnessAccumulator = st.randomnessAccumulator := by
  unfold updateRingVerifier; split <;> rfl

/-- Frame lemma: `updateRingVerifier` leaves `epochConfig` unchanged. -/
@[simp] theorem updateRingVerifier_epochConfig (cr : Crypto) (st : PalletState) (a : List AuthorityId) :
    (updateRingVerifier cr st a).epochConfig = st.epochConfig := by
  unfold updateRingVerifier; split <;> rfl

/-- Frame lemma: `updateRingVerifier` leaves `nextEpochConfig` unchanged. -/
@[simp] theorem updateRingVerifier_nextEpochConfig (cr : Crypto) (st : PalletState) (a : List AuthorityId) :
    (updateRingVerifier cr st a).nextEpochConfig = st.nextEpochConfig := by
  unfold updateRingVerifier; split <;> rfl

/-- Frame lemma: `updateRingVerifier` leaves `pendingEpochConfigChange` unchanged. -/
@[simp] theorem updateRingVerifier_pendingEpochConfigChange (cr : Crypto) (st : PalletState) (a : List AuthorityId) :
    (updateRingVerifier cr st a).pendingEpochConfigChange = st.pendingEpochConfigChange := by
  unfold updateRingVerifier; split <;> rfl

/-- Frame lemma: `updateRingVerifier` leaves `ticketsMeta` unchanged. -/
@[simp] theorem updateRingVerifier_ticketsMeta (cr : Crypto) (st : PalletState) (a : List AuthorityId) :
    (updateRingVerifier cr st a).ticketsMeta = st.ticketsMeta := by
  unfold updateRingVerifier; split <;> rfl

/-- Frame lemma: `updateRingVerifier` leaves `ticketsIds` unchanged. -/
@[simp] theorem updateRingVerifier_ticketsIds (cr : Crypto) (st : PalletState) (a : List AuthorityId) :
    (updateRingVerifier cr st a).ticketsIds = st.ticketsIds := by
  unfold updateRingVerifier; split <;> rfl

/-- Frame lemma: `updateRingVerifier` leaves `ticketsData` unchanged. -/
@[simp] theorem updateRingVerifier_ticketsData (cr : Crypto) (st : PalletState) (a : List AuthorityId) :
    (updateRingVerifier cr st a).ticketsData = st.ticketsData := by
  unfold updateRingVerifier; split <;> rfl

/-- Frame lemma: `updateRingVerifier` leaves `unsortedSegments` unchanged. -/
@[simp] theorem updateRingVerifier_unsortedSegments (cr : Crypto) (st : PalletState) (a : List AuthorityId) :
    (updateRingVerifier cr st a).unsortedSegments = st.unsortedSegments := by
  unfold updateRingVerifier; split <;> rfl

/-- Frame lemma: `updateRingVerifier` leaves `sortedCandidates` unchanged. -/
@[simp] theorem updateRingVerifier_sortedCandidates (cr : Crypto) (st : PalletState) (a : List AuthorityId) :
    (updateRingVerifier cr st a).sortedCandidates = st.sortedCandidates := by
  unfold updateRingVerifier; split <;> rfl

/-- Frame lemma: `updateRingVerifier` leaves `ringContext` unchanged. -/
@[simp] theorem updateRingVerifier_ringContext (cr : Crypto) (st : PalletState) (a : List AuthorityId) :
    (updateRingVerifier cr st a).ringContext = st.ringContext := by
  unfold updateRingVerifier; split <;> rfl

/-- Frame lemma: `updateRingVerifier` leaves `claimTemporaryData` unchanged. -/
@[simp] theorem updateRingVerifier_claimTemporaryData (cr : Crypto) (st : PalletState) (a : List AuthorityId) :
    (updateRingVerifier cr st a).claimTemporaryData = st.claimTemporaryData := by
  unfold updateRingVerifier; split <;> rfl

/-- Frame lemma: `updateRingVerifier` leaves `blockNumber` unchanged. -/
@[simp] theorem updateRingVerifier_blockNumber (cr : Crypto) (st : PalletState) (a : List AuthorityId) :
    (updateRingVerifier cr st a).blockNumber = st.blockNumber := by
  unfold updateRingVerifier; split <;> rfl

/-- Frame lemma: `updateRingVerifier` leaves `authorities` unchanged. -/
@[simp] theorem updateRingVerifier_authorities (cr : Crypto) (st : PalletState) (a : List AuthorityId) :
    (updateRingVerifier cr st a).authorities = st.authorities := by
  unfold updateRingVerifier; split <;> rfl

/-- Frame lemma: `updateRingVerifier` leaves `nextAuthorities` unchanged. -/
@[simp] theorem updateRingVerifier_nextAuthorities (cr : Crypto) (st : PalletState) (a : List AuthorityId) :
    (updateRingVerifier cr st a).nextAuthorities = st.nextAuthorities := by
  unfold updateRingVerifier; split <;> rfl

/-- Frame lemma: `updateRingVerifier` leaves `digest` unchanged. -/
@[simp] theorem updateRingVerifier_digest (cr : Crypto) (st : PalletState) (a : List AuthorityId) :
    (updateRingVerifier cr st a).digest = st.digest := by
  unfold updateRingVerifier; split <;> rfl

/-- Frame lemma: `resetTicketsData` leaves `epochIndex` unchanged. -/
@[simp] theorem resetTicketsData_epochIndex (st : PalletState) :
    (resetTicketsData st).epochIndex = st.epochIndex := by
  rfl

/-- Frame lemma: `resetTicketsData` leaves `genesisSlot` unchanged. -/
@[simp] theorem resetTicketsData_genesisSlot (st : PalletState) :
    (resetTicketsData st).genesisSlot = st.genesisSlot := by
  rfl

/-- Frame lemma: `resetTicketsData` leaves `currentSlot` unchanged. -/
@[simp] theorem resetTicketsData_currentSlot (st : PalletState) :
    (resetTicketsData st).currentSlot = st.currentSlot := by
  rfl

/-- Frame lemma: `resetTicketsData` leaves `currentRandomness` unchanged. -/
@[simp] theorem resetTicketsData_currentRandomness (st : PalletState) :
    (resetTicketsData st).currentRandomness = st.currentRandomness := by
  rfl

/-- Frame lemma: `resetTicketsData` leaves `nextRandomness` unchanged. -/
@[simp] theorem resetTicketsData_nextRandomness (st : PalletState) :
    (resetTicketsData st).nextRandomness = st.nextRandomness := by
  rfl

/-- Frame lemma: `resetTicketsData` leaves `randomnessAccumulator` unchanged. -/
@[simp] theorem resetTicketsData_randomnessAccumulator (st : PalletState) :
    (resetTicketsData st).randomnessAccumulator = st.randomnessAccumulator := by
  rfl

/-- Frame lemma: `resetTicketsData` leaves `epochConfig` unchanged. -/
@[simp] theorem resetTicketsData_epochConfig (st : PalletState) :
    (resetTicketsData st).epochConfig = st.epochConfig := by
  rfl

/-- Frame lemma: `resetTicketsData` leaves `nextEpochConfig` unchanged. -/
@[simp] theorem resetTicketsData_nextEpochConfig (st : PalletState) :
    (resetTicketsData st).nextEpochConfig = st.nextEpochConfig := by
  rfl

/-- Frame lemma: `resetTicketsData` leaves `pendingEpochConfigChange` unchanged. -/
@[simp] theorem resetTicketsData_pendingEpochConfigChange (st : PalletState) :
    (resetTicketsData st).pendingEpochConfigChange = st.pendingEpochConfigChange := by
  rfl

/-- Frame lemma: `resetTicketsData` leaves `ticketsIds` unchanged. -/
@[simp] theorem resetTicketsData_ticketsIds (st : PalletState) :
    (resetTicketsData st).ticketsIds = st.ticketsIds := by
  rfl

/-- Frame lemma: `resetTicketsData` leaves `ringContext` unchanged. -/
@[simp] theorem resetTicketsData_ringContext (st : PalletState) :
    (resetTicketsData st).ringContext = st.ringContext := by
  rfl

/-- Frame lemma: `resetTicketsData` leaves `ringVerifierData` unchanged. -/
@[simp] theorem resetTicketsData_ringVerifierData (st : PalletState) :
    (resetTicketsData st).ringVerifierData = st.ringVerifierData := by
  rfl

/-- Frame lemma: `resetTicketsData` leaves `claimTemporaryData` unchanged. -/
@[simp] theorem resetTicketsData_claimTemporaryData (st : PalletState) :
    (resetTicketsData st).claimTemporaryData = st.claimTemporaryData := by
  rfl

/-- Frame lemma: `resetTicketsData` leaves `blockNumber` unchanged. -/
@[simp] theorem resetTicketsData_blockNumber (st : PalletState) :
    (resetTicketsData st).blockNumber = st.blockNumber := by
  rfl

/-- Frame lemma: `resetTicketsData` leaves `authorities` unchanged. -/
@[simp] theorem resetTicketsData_authorities (st : PalletState) :
    (resetTicketsData st).authorities = st.authorities := by
  rfl

/-- Frame lemma: `resetTicketsData` leaves `nextAuthorities` unchanged. -/
@[simp] theorem resetTicketsData_nextAuthorities (st : PalletState) :
    (resetTicketsData st).nextAuthorities = st.nextAuthorities := by
  rfl

/-- Frame lemma: `resetTicketsData` leaves `digest` unchanged. -/
@[simp] theorem resetTicketsData_digest (st : PalletState) :
    (resetTicketsData st).digest = st.digest := by
  rfl

/-- `reset_tickets_data` kills the tickets metadata. -/
@[simp] theorem resetTicketsData_ticketsMeta (st : PalletState) :
    (resetTicketsData st).ticketsMeta = TicketsMetadata.default := rfl

/-- `reset_tickets_data` kills the sorted candidates. -/
@[simp] theorem resetTicketsData_sortedCandidates (st : PalletState) :
    (resetTicketsData st).sortedCandidates = [] := rfl

/-- Frame lemma: `updateEpochRandomness_fst` leaves `epochIndex` unchanged. -/
@[simp] theorem updateEpochRandomness_fst_epochIndex (cr : Crypto) (st : PalletState) (n : Nat) :
    (updateEpochRandomness cr st n).1.epochIndex = st.epochIndex := by
  rfl

/-- Frame lemma: `updateEpochRandomness_fst` leaves `genesisSlot` unchanged. -/
@[simp] theorem updateEpochRandomness_fst_genesisSlot (cr : Crypto) (st : PalletState) (n : Nat) :
    (updateEpochRandomness cr st n).1.genesisSlot = st.genesisSlot := by
  rfl

/-- Frame lemma: `updateEpochRandomness_fst` leaves `currentSlot` unchanged. -/
@[simp] theorem updateEpochRandomness_fst_currentSlot (cr : Crypto) (st : PalletState) (n : Nat) :
    (updateEpochRandomness cr st n).1.currentSlot = st.currentSlot := by
  rfl

/-- Frame lemma: `updateEpochRandomness_fst` leaves `randomnessAccumulator` unchanged. -/
@[simp] theorem updateEpochRandomness_fst_randomnessAccumulator (cr : Crypto) (st : PalletState) (n : Nat) :
    (updateEpochRandomness cr st n).1.randomnessAccumulator = st.randomnessAccumulator := by
  rfl

/-- Frame lemma: `updateEpochRandomness_fst` leaves `epochConfig` unchanged. -/
@[simp] theorem updateEpochRandomness_fst_epochConfig (cr : Crypto) (st : PalletState) (n : Nat) :
    (updateEpochRandomness cr st n).1.epochConfig = st.epochConfig := by
  rfl

/-- Frame lemma: `updateEpochRandomness_fst` leaves `nextEpochConfig` unchanged. -/
@[simp] theorem updateEpochRandomness_fst_nextEpochConfig (cr : Crypto) (st : PalletState) (n : Nat) :
    (updateEpochRandomness cr st n).1.nextEpochConfig = st.nextEpochConfig := by
  rfl

/-- Frame lemma: `updateEpochRandomness_fst` leaves `pendingEpochConfigChange` unchanged. -/
@[simp] theorem updateEpochRandomness_fst_pendingEpochConfigChange (cr : Crypto) (st : PalletState) (n : Nat) :
    (updateEpochRandomness cr st n).1.pendingEpochConfigChange = st.pendingEpochConfigChange := by
  rfl

/-- Frame lemma: `updateEpochRandomness_fst` leaves `ticketsMeta` unchanged. -/
@[simp] theorem updateEpochRandomness_fst_ticketsMeta (cr : Crypto) (st : PalletState) (n : Nat) :
    (updateEpochRandomness cr st n).1.ticketsMeta = st.ticketsMeta := by
  rfl

/-- Frame lemma: `updateEpochRandomness_fst` leaves `ticketsIds` unchanged. -/
@[simp] theorem updateEpochRandomness_fst_ticketsIds (cr : Crypto) (st : PalletState) (n : Nat) :
    (updateEpochRandomness cr st n).1.ticketsIds = st.ticketsIds := by
  rfl

/-- Frame lemma: `updateEpochRandomness_fst` leaves `ticketsData` unchanged. -/
@[simp] theorem updateEpochRandomness_fst_ticketsData (cr : Crypto) (st : PalletState) (n : Nat) :
    (updateEpochRandomness cr st n).1.ticketsData = st.ticketsData := by
  rfl

/-- Frame lemma: `updateEpochRandomness_fst` leaves `unsortedSegments` unchanged. -/
@[simp] theorem updateEpochRandomness_fst_unsortedSegments (cr : Crypto) (st : PalletState) (n : Nat) :
    (updateEpochRandomness cr st n).1.unsortedSegments = st.unsortedSegments := by
  rfl

/-- Frame lemma: `updateEpochRandomness_fst` leaves `sortedCandidates` unchanged. -/
@[simp] theorem updateEpochRandomness_fst_sortedCandidates (cr : Crypto) (st : PalletState) (n : Nat) :
    (updateEpochRandomness cr st n).1.sortedCandidates = st.sortedCandidates := by
  rfl

/-- Frame lemma: `updateEpochRandomness_fst` leaves `ringContext` unchanged. -/
@[simp] theorem updateEpochRandomness_fst_ringContext (cr : Crypto) (st : PalletState) (n : Nat) :
    (updateEpochRandomness cr st n).1.ringContext = st.ringContext := by
  rfl

/-- Frame lemma: `updateEpochRandomness_fst` leaves `ringVerifierData` unchanged. -/
@[simp] theorem updateEpochRandomness_fst_ringVerifierData (cr : Crypto) (st : PalletState) (n : Nat) :
    (updateEpochRandomness cr st n).1.ringVerifierData = st.ringVerifierData := by
  rfl

/-- Frame lemma: `updateEpochRandomness_fst` leaves `claimTemporaryData` unchanged. -/
@[simp] theorem updateEpochRandomness_fst_claimTemporaryData (cr : Crypto) (st : PalletState) (n : Nat) :
    (updateEpochRandomness cr st n).1.claimTemporaryData = st.claimTemporaryData := by
  rfl

/-- Frame lemma: `updateEpochRandomness_fst` leaves `blockNumber` unchanged. -/
@[simp] theorem updateEpochRandomness_fst_blockNumber (cr : Crypto) (st : PalletState) (n : Nat) :
    (updateEpochRandomness cr st n).1.blockNumber = st.blockNumber := by
  rfl

/-- Frame lemma: `updateEpochRandomness_fst` leaves `authorities` unchanged. -/
@[simp] theorem updateEpochRandomness_fst_authorities (cr : Crypto) (st : PalletState) (n : Nat) :
    (updateEpochRandomness cr st n).1.authorities = st.authorities := by
  rfl

/-- Frame lemma: `updateEpochRandomness_fst` leaves `nextAuthorities` unchanged. -/
@[simp] theorem updateEpochRandomness_fst_nextAuthorities (cr : Crypto) (st : PalletState) (n : Nat) :
    (updateEpochRandomness cr st n).1.nextAuthorities = st.nextAuthorities := by
  rfl

/-- Frame lemma: `updateEpochRandomness_fst` leaves `digest` unchanged. -/
@[simp] theorem updateEpochRandomness_fst_digest (cr : Crypto) (st : PalletState) (n : Nat) :
    (updateEpochRandomness cr st n).1.digest = st.digest := by
  rfl

/-- `update_epoch_randomness` promotes `NextRandomness` into
`CurrentRandomness`. -/
@[simp] theorem updateEpochRandomness_fst_currentRandomness (cr : Crypto)
    (st : PalletState) (n : Nat) :
    (updateEpochRandomness cr st n).1.currentRandomness = st.nextRandomness := rfl

/-- `update_epoch_randomness` computes the new `NextRandomness` as the
blake2-256 of accumulator, promoted randomness and little-endian index. -/
@[simp] theorem updateEpochRandomness_fst_nextRandomness (cr : Crypto)
    (st : PalletState) (n : Nat) :
    (updateEpochRandomness cr st n).1.nextRandomness =
      cr.blake2b256 (st.randomnessAccumulator ++ st.nextRandomness ++ toLeBytes8 n) := rfl

/-- `update_epoch_randomness` returns the new `NextRandomness`. -/
@[simp] theorem updateEpochRandomness_snd (cr : Crypto)
    (st : PalletState) (n : Nat) :
    (updateEpochRandomness cr st n).2 =
      cr.blake2b256 (st.randomnessAccumulator ++ st.nextRandomness ++ toLeBytes8 n) := rfl

/-- Frame lemma: `enactEpochIndex_fst` leaves `epochIndex` unchanged. -/
@[simp] theorem enactEpochIndex_fst_epochIndex (c : Config) (st : PalletState) :
    (enactEpochIndex c st).1.epochIndex = st.epochIndex := by
  unfold enactEpochIndex; dsimp only; split <;> simp

/-- Frame lemma: `enactEpochIndex_fst` leaves `genesisSlot` unchanged. -/
@[simp] theorem enactEpochIndex_fst_genesisSlot (c : Config) (st : PalletState) :
    (enactEpochIndex c st).1.genesisSlot = st.genesisSlot := by
  unfold enactEpochIndex; dsimp only; split <;> simp

/-- Frame lemma: `enactEpochIndex_fst` leaves `currentSlot` unchanged. -/
@[simp] theorem enactEpochIndex_fst_currentSlot (c : Config) (st : PalletState) :
    (enactEpochIndex c st).1.currentSlot = st.currentSlot := by
  unfold enactEpochIndex; dsimp only; split <;> simp

/-- Frame lemma: `enactEpochIndex_fst` leaves `currentRandomness` unchanged. -/
@[simp] theorem enactEpochIndex_fst_currentRandomness (c : Config) (st : PalletState) :
    (enactEpochIndex c st).1.currentRandomness = st.currentRandomness := by
  unfold enactEpochIndex; dsimp only; split <;> simp

/-- Frame lemma: `enactEpochIndex_fst` leaves `nextRandomness` unchanged. -/
@[simp] theorem enactEpochIndex_fst_nextRandomness (c : Config) (st : PalletState) :
    (enactEpochIndex c st).1.nextRandomness = st.nextRandomness := by
  unfold enactEpochIndex; dsimp only; split <;> simp

/-- Frame lemma: `enactEpochIndex_fst` leaves `randomnessAccumulator` unchanged. -/
@[simp] theorem enactEpochIndex_fst_randomnessAccumulator (c : Config) (st : PalletState) :
    (enactEpochIndex c st).1.randomnessAccumulator = st.randomnessAccumulator := by
  unfold enactEpochIndex; dsimp only; split <;> simp

/-- Frame lemma: `enactEpochIndex_fst` leaves `epochConfig` unchanged. -/
@[simp] theorem enactEpochIndex_fst_epochConfig (c : Config) (st : PalletState) :
    (enactEpochIndex c st).1.epochConfig = st.epochConfig := by
  unfold enactEpochIndex; dsimp only; split <;> simp

/-- Frame lemma: `enactEpochIndex_fst` leaves `nextEpochConfig` unchanged. -/
@[simp] theorem enactEpochIndex_fst_nextEpochConfig (c : Config) (st : PalletState) :
    (enactEpochIndex c st).1.nextEpochConfig = st.nextEpochConfig := by
  unfold enactEpochIndex; dsimp only; split <;> simp

/-- Frame lemma: `enactEpochIndex_fst` leaves `pendingEpochConfigChange` unchanged. -/
@[simp] theorem enactEpochIndex_fst_pendingEpochConfigChange (c : Config) (st : PalletState) :
    (enactEpochIndex c st).1.pendingEpochConfigChange = st.pendingEpochConfigChange := by
  unfold enactEpochIndex; dsimp only; split <;> simp

/-- Frame lemma: `enactEpochIndex_fst` leaves `ticketsIds` unchanged. -/
@[simp] theorem enactEpochIndex_fst_ticketsIds (c : Config) (st : PalletState) :
    (enactEpochIndex c st).1.ticketsIds = st.ticketsIds := by
  unfold enactEpochIndex; dsimp only; split <;> simp

/-- Frame lemma: `enactEpochIndex_fst` leaves `ringContext` unchanged. -/
@[simp] theorem enactEpochIndex_fst_ringContext (c : Config) (st : PalletState) :
    (enactEpochIndex c st).1.ringContext = st.ringContext := by
  unfold enactEpochIndex; dsimp only; split <;> simp

/-- Frame lemma: `enactEpochIndex_fst` leaves `ringVerifierData` unchanged. -/
@[simp] theorem enactEpochIndex_fst_ringVerifierData (c : Config) (st : PalletState) :
    (enactEpochIndex c st).1.ringVerifierData = st.ringVerifierData := by
  unfold enactEpochIndex; dsimp only; split <;> simp

/-- Frame lemma: `enactEpochIndex_fst` leaves `claimTemporaryData` unchanged. -/
@[simp] theorem enactEpochIndex_fst_claimTemporaryData (c : Config) (st : PalletState) :
    (enactEpochIndex c st).1.claimTemporaryData = st.claimTemporaryData := by
  unfold enactEpochIndex; dsimp only; split <;> simp

/-- Frame lemma: `enactEpochIndex_fst` leaves `blockNumber` unchanged. -/
@[simp] theorem enactEpochIndex_fst_blockNumber (c : Config) (st : PalletState) :
    (enactEpochIndex c st).1.blockNumber = st.blockNumber := by
  unfold enactEpochIndex; dsimp only; split <;> simp

/-- Frame lemma: `enactEpochIndex_fst` leaves `authorities` unchanged. -/
@[simp] theorem enactEpochIndex_fst_authorities (c : Config) (st : PalletState) :
    (enactEpochIndex c st).1.authorities = st.authorities := by
  unfold enactEpochIndex; dsimp only; split <;> simp

/-- Frame lemma: `enactEpochIndex_fst` leaves `nextAuthorities` unchanged. -/
@[simp] theorem enactEpochIndex_fst_nextAuthorities (c : Config) (st : PalletState) :
    (enactEpochIndex c st).1.nextAuthorities = st.nextAuthorities := by
  unfold enactEpochIndex; dsimp only; split <;> simp

/-- Frame lemma: `enactEpochIndex_fst` leaves `digest` unchanged. -/
@[simp] theorem enactEpochIndex_fst_digest (c : Config) (st : PalletState) :
    (enactEpochIndex c st).1.digest = st.digest := by
  unfold enactEpochIndex; dsimp only; split <;> simp

/-- Frame lemma: `enactConfigPromotion_fst` leaves `epochIndex` unchanged. -/
@[simp] theorem enactConfigPromotion_fst_epochIndex (st : PalletState) :
    (enactConfigPromotion st).1.epochIndex = st.epochIndex := by
  unfold enactConfigPromotion; dsimp only; split <;> split <;> rfl

/-- Frame lemma: `enactConfigPromotion_fst` leaves `genesisSlot` unchanged. -/
@[simp] theorem enactConfigPromotion_fst_genesisSlot (st : PalletState) :
    (enactConfigPromotion st).1.genesisSlot = st.genesisSlot := by
  unfold enactConfigPromotion; dsimp only; split <;> split <;> rfl

/-- Frame lemma: `enactConfigPromotion_fst` leaves `currentSlot` unchanged. -/
@[simp] theorem enactConfigPromotion_fst_currentSlot (st : PalletState) :
    (enactConfigPromotion st).1.currentSlot = st.currentSlot := by
  unfold enactConfigPromotion; dsimp only; split <;> split <;> rfl

/-- Frame lemma: `enactConfigPromotion_fst` leaves `currentRandomness` unchanged. -/
@[simp] theorem enactConfigPromotion_fst_currentRandomness (st : PalletState) :
    (enactConfigPromotion st).1.currentRandomness = st.currentRandomness := by
  unfold enactConfigPromotion; dsimp only; split <;> split <;> rfl

/-- Frame lemma: `enactConfigPromotion_fst` leaves `nextRandomness` unchanged. -/
@[simp] theorem enactConfigPromotion_fst_nextRandomness (st : PalletState) :
    (enactConfigPromotion st).1.nextRandomness = st.nextRandomness := by
  unfold enactConfigPromotion; dsimp only; split <;> split <;> rfl

/-- Frame lemma: `enactConfigPromotion_fst` leaves `randomnessAccumulator` unchanged. -/
@[simp] theorem enactConfigPromotion_fst_randomnessAccumulator (st : PalletState) :
    (enactConfigPromotion st).1.randomnessAccumulator = st.randomnessAccumulator := by
  unfold enactConfigPromotion; dsimp only; split <;> split <;> rfl

/-- Frame lemma: `enactConfigPromotion_fst` leaves `ticketsMeta` unchanged. -/
@[simp] theorem enactConfigPromotion_fst_ticketsMeta (st : PalletState) :
    (enactConfigPromotion st).1.ticketsMeta = st.ticketsMeta := by
  unfold enactConfigPromotion; dsimp only; split <;> split <;> rfl

/-- Frame lemma: `enactConfigPromotion_fst` leaves `ticketsIds` unchanged. -/
@[simp] theorem enactConfigPromotion_fst_ticketsIds (st : PalletState) :
    (enactConfigPromotion st).1.ticketsIds = st.ticketsIds := by
  unfold enactConfigPromotion; dsimp only; split <;> split <;> rfl

/-- Frame lemma: `enactConfigPromotion_fst` leaves `ticketsData` unchanged. -/
@[simp] theorem enactConfigPromotion_fst_ticketsData (st : PalletState) :
    (enactConfigPromotion st).1.ticketsData = st.ticketsData := by
  unfold enactConfigPromotion; dsimp only; split <;> split <;> rfl

/-- Frame lemma: `enactConfigPromotion_fst` leaves `unsortedSegments` unchanged. -/
@[simp] theorem enactConfigPromotion_fst_unsortedSegments (st : PalletState) :
    (enactConfigPromotion st).1.unsortedSegments = st.unsortedSegments := by
  unfold enactConfigPromotion; dsimp only; split <;> split <;> rfl

/-- Frame lemma: `enactConfigPromotion_fst` leaves `sortedCandidates` unchanged. -/
@[simp] theorem enactConfigPromotion_fst_sortedCandidates (st : PalletState) :
    (enactConfigPromotion st).1.sortedCandidates = st.sortedCandidates := by
  unfold enactConfigPromotion; dsimp only; split <;> split <;> rfl

/-- Frame lemma: `enactConfigPromotion_fst` leaves `ringContext` unchanged. -/
@[simp] theorem enactConfigPromotion_fst_ringContext (st : PalletState) :
    (enactConfigPromotion st).1.ringContext = st.ringContext := by
  unfold enactConfigPromotion; dsimp only; split <;> split <;> rfl

/-- Frame lemma: `enactConfigPromotion_fst` leaves `ringVerifierData` unchanged. -/
@[simp] theorem enactConfigPromotion_fst_ringVerifierData (st : PalletState) :
    (enactConfigPromotion st).1.ringVerifierData = st.ringVerifierData := by
  unfold enactConfigPromotion; dsimp only; split <;> split <;> rfl

/-- Frame lemma: `enactConfigPromotion_fst` leaves `claimTemporaryData` unchanged. -/
@[simp] theorem enactConfigPromotion_fst_claimTemporaryData (st : PalletState) :
    (enactConfigPromotion st).1.claimTemporaryData = st.claimTemporaryData := by
  unfold enactConfigPromotion; dsimp only; split <;> split <;> rfl

/-- Frame lemma: `enactConfigPromotion_fst` leaves `blockNumber` unchanged. -/
@[simp] theorem enactConfigPromotion_fst_blockNumber (st : PalletState) :
    (enactConfigPromotion st).1.blockNumber = st.blockNumber := by
  unfold enactConfigPromotion; dsimp only; split <;> split <;> rfl

/-- Frame lemma: `enactConfigPromotion_fst` leaves `authorities` unchanged. -/
@[simp] theorem enactConfigPromotion_fst_authorities (st : PalletState) :
    (enactConfigPromotion st).1.authorities = st.authorities := by
  unfold enactConfigPromotion; dsimp only; split <;> split <;> rfl

/-- Frame lemma: `enactConfigPromotion_fst` leaves `nextAuthorities` unchanged. -/
@[simp] theorem enactConfigPromotion_fst_nextAuthorities (st : PalletState) :
    (enactConfigPromotion st).1.nextAuthorities = st.nextAuthorities := by
  unfold enactConfigPromotion; dsimp only; split <;> split <;> rfl

/-- Frame lemma: `enactConfigPromotion_fst` leaves `digest` unchanged. -/
@[simp] theorem enactConfigPromotion_fst_digest (st : PalletState) :
    (enactConfigPromotion st).1.digest = st.digest := by
  unfold enactConfigPromotion; dsimp only; split <;> split <;> rfl

/-- Frame lemma: `enactTickets` leaves `epochIndex` unchanged. -/
@[simp] theorem enactTickets_epochIndex (c : Config) (st : PalletState) (meta : TicketsMetadata) (tag : Nat) :
    (enactTickets c st meta tag).epochIndex = st.epochIndex := by
  unfold enactTickets; dsimp only; repeat1 split <;> simp

/-- Frame lemma: `enactTickets` leaves `genesisSlot` unchanged. -/
@[simp] theorem enactTickets_genesisSlot (c : Config) (st : PalletState) (meta : TicketsMetadata) (tag : Nat) :
    (enactTickets c st meta tag).genesisSlot = st.genesisSlot := by
  unfold enactTickets; dsimp only; repeat1 split <;> simp

/-- Frame lemma: `enactTickets` leaves `currentSlot` unchanged. -/
@[simp] theorem enactTickets_currentSlot (c : Config) (st : PalletState) (meta : TicketsMetadata) (tag : Nat) :
    (enactTickets c st meta tag).currentSlot = st.currentSlot := by
  unfold enactTickets; dsimp only; repeat1 split <;> simp

/-- Frame lemma: `enactTickets` leaves `currentRandomness` unchanged. -/
@[simp] theorem enactTickets_currentRandomness (c : Config) (st : PalletState) (meta : TicketsMetadata) (tag : Nat) :
    (enactTickets c st meta tag).currentRandomness = st.currentRandomness := by
  unfold enactTickets; dsimp only; repeat1 split <;> simp

/-- Frame lemma: `enactTickets` leaves `nextRandomness` unchanged. -/
@[simp] theorem enactTickets_nextRandomness (c : Config) (st : PalletState) (meta : TicketsMetadata) (tag : Nat) :
    (enactTickets c st meta tag).nextRandomness = st.nextRandomness := by
  unfold enactTickets; dsimp only; repeat1 split <;> simp

/-- Frame lemma: `enactTickets` leaves `randomnessAccumulator` unchanged. -/
@[simp] theorem enactTickets_randomnessAccumulator (c : Config) (st : PalletState) (meta : TicketsMetadata) (tag : Nat) :
    (enactTickets c st meta tag).randomnessAccumulator = st.randomnessAccumulator := by
  unfold enactTickets; dsimp only; repeat1 split <;> simp

/-- Frame lemma: `enactTickets` leaves `epochConfig` unchanged. -/
@[simp] theorem enactTickets_epochConfig (c : Config) (st : PalletState) (meta : TicketsMetadata) (tag : Nat) :
    (enactTickets c st meta tag).epochConfig = st.epochConfig := by
  unfold enactTickets; dsimp only; repeat1 split <;> simp

/-- Frame lemma: `enactTickets` leaves `nextEpochConfig` unchanged. -/
@[simp] theorem enactTickets_nextEpochConfig (c : Config) (st : PalletState) (meta : TicketsMetadata) (tag : Nat) :
    (enactTickets c st meta tag).nextEpochConfig = st.nextEpochConfig := by
  unfold enactTickets; dsimp only; repeat1 split <;> simp

/-- Frame lemma: `enactTickets` leaves `pendingEpochConfigChange` unchanged. -/
@[simp] theorem enactTickets_pendingEpochConfigChange (c : Config) (st : PalletState) (meta : TicketsMetadata) (tag : Nat) :
    (enactTickets c st meta tag).pendingEpochConfigChange = st.pendingEpochConfigChange := by
  unfold enactTickets; dsimp only; repeat1 split <;> simp

/-- Frame lemma: `enactTickets` leaves `ringContext` unchanged. -/
@[simp] theorem enactTickets_ringContext (c : Config) (st : PalletState) (meta : TicketsMetadata) (tag : Nat) :
    (enactTickets c st meta tag).ringContext = st.ringContext := by
  unfold enactTickets; dsimp only; repeat1 split <;> simp

/-- Frame lemma: `enactTickets` leaves `ringVerifierData` unchanged. -/
@[simp] theorem enactTickets_ringVerifierData (c : Config) (st : PalletState) (meta : TicketsMetadata) (tag : Nat) :
    (enactTickets c st meta tag).ringVerifierData = st.ringVerifierData := by
  unfold enactTickets; dsimp only; repeat1 split <;> simp

/-- Frame lemma: `enactTickets` leaves `claimTemporaryData` unchanged. -/
@[simp] theorem enactTickets_claimTemporaryData (c : Config) (st : PalletState) (meta : TicketsMetadata) (tag : Nat) :
    (enactTickets c st meta tag).claimTemporaryData = st.claimTemporaryData := by
  unfold enactTickets; dsimp only; repeat1 split <;> simp

/-- Frame lemma: `enactTickets` leaves `blockNumber` unchanged. -/
@[simp] theorem enactTickets_blockNumber (c : Config) (st : PalletState) (meta : TicketsMetadata) (tag : Nat) :
    (enactTickets c st meta tag).blockNumber = st.blockNumber := by
  unfold enactTickets; dsimp only; repeat1 split <;> simp

/-- Frame lemma: `enactTickets` leaves `authorities` unchanged. -/
@[simp] theorem enactTickets_authorities (c : Config) (st : PalletState) (meta : TicketsMetadata) (tag : Nat) :
    (enactTickets c st meta tag).authorities = st.authorities := by
  unfold enactTickets; dsimp only; repeat1 split <;> simp

/-- Frame lemma: `enactTickets` leaves `nextAuthorities` unchanged. -/
@[simp] theorem enactTickets_nextAuthorities (c : Config) (st : PalletState) (meta : TicketsMetadata) (tag : Nat) :
    (enactTickets c st meta tag).nextAuthorities = st.nextAuthorities := by
  unfold enactTickets; dsimp only; repeat1 split <;> simp

/-- Frame lemma: `enactTickets` leaves `digest` unchanged. -/
@[simp] theorem enactTickets_digest (c : Config) (st : PalletState) (meta : TicketsMetadata) (tag : Nat) :
    (enactTickets c st meta tag).digest = st.digest := by
  unfold enactTickets; dsimp only; repeat1 split <;> simp


/-- Frame lemma: `enactPrelim` leaves `epochIndex` unchanged. -/
@[simp] theorem enactPrelim_epochIndex (cr : Crypto) (a na : List AuthorityId)
    (st : PalletState) :
    (enactPrelim cr a na st).epochIndex = st.epochIndex := by
  unfold enactPrelim
  dsimp only
  split <;> simp

/-- Frame lemma: `enactPrelim` leaves `genesisSlot` unchanged. -/
@[simp] theorem enactPrelim_genesisSlot (cr : Crypto) (a na : List AuthorityId)
    (st : PalletState) :
    (enactPrelim cr a na st).genesisSlot = st.genesisSlot := by
  unfold enactPrelim
  dsimp only
  split <;> simp

/-- Frame lemma: `enactPrelim` leaves `currentSlot` unchanged. -/
@[simp] theorem enactPrelim_currentSlot (cr : Crypto) (a na : List AuthorityId)
    (st : PalletState) :
    (enactPrelim cr a na st).currentSlot = st.currentSlot := by
  unfold enactPrelim
  dsimp only
  split <;> simp

/-- Frame lemma: `enactPrelim` leaves `currentRandomness` unchanged. -/
@[simp] theorem enactPrelim_currentRandomness (cr : Crypto) (a na : List AuthorityId)
    (st : PalletState) :
    (enactPrelim cr a na st).currentRandomness = st.currentRandomness := by
  unfold enactPrelim
  dsimp only
  split <;> simp

/-- Frame lemma: `enactPrelim` leaves `nextRandomness` unchanged. -/
@[simp] theorem enactPrelim_nextRandomness (cr : Crypto) (a na : List AuthorityId)
    (st : PalletState) :
    (enactPrelim cr a na st).nextRandomness = st.nextRandomness := by
  unfold enactPrelim
  dsimp only
  split <;> simp

/-- Frame lemma: `enactPrelim` leaves `randomnessAccumulator` unchanged. -/
@[simp] theorem enactPrelim_randomnessAccumulator (cr : Crypto) (a na : List AuthorityId)
    (st : PalletState) :
    (enactPrelim cr a na st).randomnessAccumulator = st.randomnessAccumulator := by
  unfold enactPrelim
  dsimp only
  split <;> simp

/-- Frame lemma: `enactPrelim` leaves `epochConfig` unchanged. -/
@[simp] theorem enactPrelim_epochConfig (cr : Crypto) (a na : List AuthorityId)
    (st : PalletState) :
    (enactPrelim cr a na st).epochConfig = st.epochConfig := by
  unfold enactPrelim
  dsimp only
  split <;> simp

/-- Frame lemma: `enactPrelim` leaves `nextEpochConfig` unchanged. -/
@[simp] theorem enactPrelim_nextEpochConfig (cr : Crypto) (a na : List AuthorityId)
    (st : PalletState) :
    (enactPrelim cr a na st).nextEpochConfig = st.nextEpochConfig := by
  unfold enactPrelim
  dsimp only
  split <;> simp

/-- Frame lemma: `enactPrelim` leaves `pendingEpochConfigChange` unchanged. -/
@[simp] theorem enactPrelim_pendingEpochConfigChange (cr : Crypto) (a na : List AuthorityId)
    (st : PalletState) :
    (enactPrelim cr a na st).pendingEpochConfigChange = st.pendingEpochConfigChange := by
  unfold enactPrelim
  dsimp only
  split <;> simp

/-- Frame lemma: `enactPrelim` leaves `ticketsMeta` unchanged. -/
@[simp] theorem enactPrelim_ticketsMeta (cr : Crypto) (a na : List AuthorityId)
    (st : PalletState) :
    (enactPrelim cr a na st).ticketsMeta = st.ticketsMeta := by
  unfold enactPrelim
  dsimp only
  split <;> simp

/-- Frame lemma: `enactPrelim` leaves `ticketsIds` unchanged. -/
@[simp] theorem enactPrelim_ticketsIds (cr : Crypto) (a na : List AuthorityId)
    (st : PalletState) :
    (enactPrelim cr a na st).ticketsIds = st.ticketsIds := by
  unfold enactPrelim
  dsimp only
  split <;> simp

/-- Frame lemma: `enactPrelim` leaves `ticketsData` unchanged. -/
@[simp] theorem enactPrelim_ticketsData (cr : Crypto) (a na : List AuthorityId)
    (st : PalletState) :
    (enactPrelim cr a na st).ticketsData = st.ticketsData := by
  unfold enactPrelim
  dsimp only
  split <;> simp

/-- Frame lemma: `enactPrelim` leaves `unsortedSegments` unchanged. -/
@[simp] theorem enactPrelim_unsortedSegments (cr : Crypto) (a na : List AuthorityId)
    (st : PalletState) :
    (enactPrelim cr a na st).unsortedSegments = st.unsortedSegments := by
  unfold enactPrelim
  dsimp only
  split <;> simp

/-- Frame lemma: `enactPrelim` leaves `sortedCandidates` unchanged. -/
@[simp] theorem enactPrelim_sortedCandidates (cr : Crypto) (a na : List AuthorityId)
    (st : PalletState) :
    (enactPrelim cr a na st).sortedCandidates = st.sortedCandidates := by
  unfold enactPrelim
  dsimp only
  split <;> simp

/-- Frame lemma: `enactPrelim` leaves `ringContext` unchanged. -/
@[simp] theorem enactPrelim_ringContext (cr : Crypto) (a na : List AuthorityId)
    (st : PalletState) :
    (enactPrelim cr a na st).ringContext = st.ringContext := by
  unfold enactPrelim
  dsimp only
  split <;> simp

/-- Frame lemma: `enactPrelim` leaves `claimTemporaryData` unchanged. -/
@[simp] theorem enactPrelim_claimTemporaryData (cr : Crypto) (a na : List AuthorityId)
    (st : PalletState) :
    (enactPrelim cr a na st).claimTemporaryData = st.claimTemporaryData := by
  unfold enactPrelim
  dsimp only
  split <;> simp

/-- Frame lemma: `enactPrelim` leaves `blockNumber` unchanged. -/
@[simp] theorem enactPrelim_blockNumber (cr : Crypto) (a na : List AuthorityId)
    (st : PalletState) :
    (enactPrelim cr a na st).blockNumber = st.blockNumber := by
  unfold enactPrelim
  dsimp only
  split <;> simp

/-- Frame lemma: `enactPrelim` leaves `digest` unchanged. -/
@[simp] theorem enactPrelim_digest (cr : Crypto) (a na : List AuthorityId)
    (st : PalletState) :
    (enactPrelim cr a na st).digest = st.digest := by
  unfold enactPrelim
  dsimp only
  split <;> simp

/-- C2: every `enact_epoch_change` first promotes the old
`NextRandomness` into `CurrentRandomness` and then recomputes
`NextRandomness` — the randomness of epoch `epoch_idx + 1`, for the
newly stored `EpochIndex = epoch_idx` — as
`blake2_256(accumulator || CurrentRandomness || le_bytes(epoch_idx + 1))`,
folding the accumulator with the just-ended epoch's next randomness. -/
theorem enact_epoch_change_randomness (c : Config) (cr : Crypto)
    (auths nauths : List AuthorityId) (st : PalletState) :
    (enactEpochChange c cr auths nauths st).currentRandomness = st.nextRandomness ∧
    (enactEpochChange c cr auths nauths st).nextRandomness =
      cr.blake2b256 (st.randomnessAccumulator ++ st.nextRandomness ++
        toLeBytes8 ((enactEpochChange c cr auths nauths st).epochIndex + 1)) := by
  unfold enactEpochChange
  dsimp only
  constructor <;> simp


/-- C4: the pre-pool gate for `submit_tickets`: external sources are
rejected with `BadSigner`; past the epoch midpoint the call is rejected
with `Stale`; otherwise it is accepted with maximum priority and
longevity `EpochLength / 2 - current_slot_index`. -/
theorem validate_unsigned_gate (c : Config) (cr : Crypto)
    (source : TransactionSource) (tickets : List TicketEnvelope)
    (st : PalletState) :
    (source = TransactionSource.External →
      validateUnsigned c cr source (.submitTickets tickets) st =
        .badSigner) ∧
    (source ≠ TransactionSource.External →
      c.epochLength / 2 < currentSlotIndex c st →
      validateUnsigned c cr source (.submitTickets tickets) st = .stale) ∧
    (source ≠ TransactionSource.External →
      currentSlotIndex c st ≤ c.epochLength / 2 →
      validateUnsigned c cr source (.submitTickets tickets) st =
        .valid u64MAX (c.epochLength / 2 - currentSlotIndex c st)
          (cr.blake2b256 (cr.encodeTickets tickets)) true) := by
  refine ⟨fun h => ?_, fun h hlt => ?_, fun h hle => ?_⟩ <;>
    simp [validateUnsigned, h]
  · exact hlt
  · omega

/-- Witness for C4 at concrete inputs: `EpochLength = 10`; an external
submission is rejected with `BadSigner`; a local one at slot index 6 is
rejected with `Stale`; a local one at slot index 0 is accepted with
maximum priority and longevity 5. -/
theorem validate_unsigned_gate_witness :
    validateUnsigned ⟨10⟩ cryptoZ .External (.submitTickets []) stZero =
      .badSigner ∧
    validateUnsigned ⟨10⟩ cryptoZ .Local (.submitTickets [])
      { stZero with currentSlot := 6 } = .stale ∧
    validateUnsigned ⟨10⟩ cryptoZ .Local (.submitTickets []) stZero =
      .valid u64MAX 5 (cryptoZ.blake2b256 (cryptoZ.encodeTickets [])) true := by
  refine ⟨(validate_unsigned_gate ⟨10⟩ cryptoZ .External [] stZero).1 rfl,
    (validate_unsigned_gate ⟨10⟩ cryptoZ .Local []
      { stZero with currentSlot := 6 }).2.1 (by decide) (by decide), ?_⟩
  have h := (validate_unsigned_gate ⟨10⟩ cryptoZ .Local [] stZero).2.2
    (by decide) (by decide)
  simpa [show currentSlotIndex ⟨10⟩ stZero = 0 by decide] using h


/-- The sort loop never fills a segment: each segment is either emptied or
left unchanged. -/
theorem sortLoop_segments (mt : Nat) :
    ∀ (n : Nat) (acc : SortAcc) (k : Nat),
      (sortLoop mt n acc).unsortedSegments k = [] ∨
      (sortLoop mt n acc).unsortedSegments k = acc.unsortedSegments k := by
  intro n
  induction n with
  | zero => intro acc k; exact Or.inr rfl
  | succ m ih =>
    intro acc k
    rcases ih (sortSegmentStep mt acc) k with h | h
    · exact Or.inl h
    · rw [sortLoop, h]
      unfold sortSegmentStep
      dsimp only
      split <;> dsimp only <;> by_cases hk : k = acc.segCount - 1 <;> simp [hk]

/-- `sort_tickets` either empties a segment or leaves it unchanged. -/
theorem sortTickets_fst_segments (c : Config) (ms tag : Nat)
    (st : PalletState) (meta : TicketsMetadata) (k : Nat) :
    (sortTickets c ms tag st meta).1.unsortedSegments k = [] ∨
    (sortTickets c ms tag st meta).1.unsortedSegments k = st.unsortedSegments k := by
  unfold sortTickets sortFinish
  dsimp only
  split <;> exact sortLoop_segments _ _ _ k

/-- `reset_tickets_data` either empties a segment or leaves it unchanged. -/
theorem resetTicketsData_segments (st : PalletState) (k : Nat) :
    (resetTicketsData st).unsortedSegments k = [] ∨
    (resetTicketsData st).unsortedSegments k = st.unsortedSegments k := by
  unfold resetTicketsData
  dsimp only
  split
  · exact Or.inl rfl
  · exact Or.inr rfl

/-- The tickets maintenance tail of `enact_epoch_change` either empties
a segment or leaves it unchanged. -/
theorem enactTickets_segments (c : Config) (st : PalletState)
    (meta : TicketsMetadata) (tag : Nat) (k : Nat) :
    (enactTickets c st meta tag).unsortedSegments k = [] ∨
    (enactTickets c st meta tag).unsortedSegments k = st.unsortedSegments k := by
  unfold enactTickets
  dsimp only
  split
  · split
    · exact sortTickets_fst_segments c u32MAX tag st meta k
    · exact sortTickets_fst_segments c u32MAX tag st meta k
  · split
    · exact Or.inr rfl
    · exact Or.inr rfl

/-- The epoch index update step either empties a segment or leaves it
unchanged. -/
theorem enactEpochIndex_fst_segments (c : Config) (st : PalletState) (k : Nat) :
    (enactEpochIndex c st).1.unsortedSegments k = [] ∨
    (enactEpochIndex c st).1.unsortedSegments k = st.unsortedSegments k := by
  unfold enactEpochIndex
  dsimp only
  split
  · exact resetTicketsData_segments st k
  · exact Or.inr rfl

/-- `enact_epoch_change` either empties a segment or leaves it unchanged. -/
theorem enact_segments_cases (c : Config) (cr : Crypto)
    (a na : List AuthorityId) (st : PalletState) (k : Nat) :
    (enactEpochChange c cr a na st).unsortedSegments k = [] ∨
    (enactEpochChange c cr a na st).unsortedSegments k = st.unsortedSegments k := by
  unfold enactEpochChange
  dsimp only
  rcases enactTickets_segments c _ _ _ k with h | h
  · exact Or.inl h
  · rw [h]
    simp only [enactConfigPromotion_fst_unsortedSegments,
      updateEpochRandomness_fst_unsortedSegments]
    rcases enactEpochIndex_fst_segments c _ k with h2 | h2
    · exact Or.inl h2
    · rw [h2]
      right
      simp


/-- Concrete state for the C1 counterexample: epoch 0 about to rotate
into epoch 1 with no skipped epochs, one unsorted ticket (id 7) in
segment 0, and an empty previous epoch half. -/
def c1State : PalletState := { stZero with
  currentSlot := 10
  ticketsMeta := { unsorted_tickets_count := 1, tickets_count0 := 0, tickets_count1 := 0 }
  unsortedSegments := fun k => if k = 0 then [7] else [] }

/-- C1: the claim fails on the code.  After `enact_epoch_change` on
`c1State` the residual flush `sort_tickets(u32::MAX, ...)` drains every
unsorted segment and writes the sorted ticket into `TicketsIds`, but
because the previous epoch half's `tickets_count` was already zero the
mutated metadata is never persisted: the stored `TicketsMeta` still
records one unsorted ticket (and a zero tickets count for the freshly
written half), violating invariant 4
(`unsorted_tickets_count = sum of the segment lengths = 0`). -/
theorem enact_epoch_change_meta_not_persisted :
    (∀ k, (enactEpochChange ⟨10⟩ cryptoZ [] [] c1State).unsortedSegments k = []) ∧
    (enactEpochChange ⟨10⟩ cryptoZ [] [] c1State).ticketsMeta.unsorted_tickets_count = 1 ∧
    (enactEpochChange ⟨10⟩ cryptoZ [] [] c1State).ticketsIds 1 0 = some 7 ∧
    (enactEpochChange ⟨10⟩ cryptoZ [] [] c1State).ticketsMeta.tickets_count1 = 0 := by
  refine ⟨fun k => ?_, by decide, by decide, by decide⟩
  rcases enact_segments_cases ⟨10⟩ cryptoZ [] [] c1State k with h | h
  · exact h
  · rw [h]
    by_cases hk : k = 0
    · subst hk
      rcases enact_segments_cases ⟨10⟩ cryptoZ [] [] c1State 0 with h0 | h0
      · rw [h0] at h
        exact h.symm
      · by_contra _
        have : (enactEpochChange ⟨10⟩ cryptoZ [] [] c1State).unsortedSegments 0 = [] := by
          decide
        rw [this] at h
        simp [c1State, stZero] at h
    · simp [c1State, stZero, hk]


/-- Concrete state for the C9 counterexample: `EpochLength = 10`, the
current slot index is exactly the epoch length (boundary case), one
unsorted ticket outstanding, and a pending slot claim so that
`on_finalize` runs its body. -/
def c9State : PalletState := { stZero with
  currentSlot := 10
  ticketsMeta := { unsorted_tickets_count := 1, tickets_count0 := 0, tickets_count1 := 0 }
  unsortedSegments := fun k => if k = 0 then [9] else []
  claimTemporaryData := some 0 }

/-- C9: the claim fails on the code at the boundary.  With
`current_slot_index = EpochLength` the `checked_sub` succeeds with 0
(the `unwrap_or(1)` fallback fires only when the index strictly exceeds
the epoch length), so `slots_left = 0` and the `div_ceil` divisor
`SEGMENT_MAX_SIZE * slots_left` is zero: `u32::div_ceil` panics with a
division by zero, modelled by `on_finalize` returning `none`.  The
midpoint gate and the nonempty-unsorted gate are both satisfied, so the
division is actually reached. -/
theorem finalize_divisor_zero_at_boundary :
    currentSlotIndex ⟨10⟩ c9State = (10 : Nat) ∧
    (10 : Nat) / 2 ≤ currentSlotIndex ⟨10⟩ c9State ∧
    c9State.ticketsMeta.unsorted_tickets_count ≠ 0 ∧
    finalizeSlotsLeft ⟨10⟩ c9State = 0 ∧
    finalizeSortDivisor ⟨10⟩ c9State = 0 ∧
    onFinalize ⟨10⟩ cryptoZ c9State = none := by
  refine ⟨by decide, by decide, by decide, by decide, by decide, ?_⟩
  rfl


/-- The removal loop never resurrects a removed body. -/
theorem foldRemove_preserves_none (ids : Nat → Nat → Option TicketId)
    (tag : Nat) (l : List Nat) (d : TicketId → Option TicketBody)
    (id : TicketId) (h : d id = none) :
    (l.foldl (removeListedStep ids tag) d) id = none := by
  induction l generalizing d with
  | nil => exact h
  | cons j t ih =>
    rw [List.foldl_cons]
    apply ih
    unfold removeListedStep
    cases hj : ids tag j with
    | none => exact h
    | some id2 =>
      by_cases hid : id = id2 <;> simp [removeData, hid, h]

/-- The removal loop removes the body of every listed index of the list. -/
theorem foldRemove_mem (ids : Nat → Nat → Option TicketId) (tag : Nat)
    (l : List Nat) (d : TicketId → Option TicketBody) (i : Nat)
    (id : TicketId) (hmem : i ∈ l) (hid : ids tag i = some id) :
    (l.foldl (removeListedStep ids tag) d) id = none := by
  induction l generalizing d with
  | nil => cases hmem
  | cons j t ih =>
    rw [List.foldl_cons]
    rcases List.mem_cons.mp hmem with rfl | hmem2
    · apply foldRemove_preserves_none
      unfold removeListedStep
      rw [hid]
      simp [removeData]
    · exact ih _ hmem2

/-- `removeListed` removes the body of every listed index below the count. -/
theorem removeListed_removes (ids : Nat → Nat → Option TicketId)
    (tag count : Nat) (d : TicketId → Option TicketBody) (i : Nat)
    (id : TicketId) (hi : i < count) (hid : ids tag i = some id) :
    removeListed ids tag count d id = none :=
  foldRemove_mem ids tag _ d i id (List.mem_range.mpr hi) hid

/-- `removeListed` never resurrects a removed body. -/
theorem removeListed_preserves_none (ids : Nat → Nat → Option TicketId)
    (tag count : Nat) (d : TicketId → Option TicketBody) (id : TicketId)
    (h : d id = none) : removeListed ids tag count d id = none :=
  foldRemove_preserves_none ids tag _ d id h

/-- Data written by `reset_tickets_data`: both halves of the listed
tickets are removed, in source order. -/
theorem resetTicketsData_ticketsData_eq (st : PalletState) :
    (resetTicketsData st).ticketsData =
      removeListed st.ticketsIds 1 st.ticketsMeta.tickets_count1
        (removeListed st.ticketsIds 0 st.ticketsMeta.tickets_count0 st.ticketsData) := rfl

/-- Segments after `reset_tickets_data`: all segments up to the segment
count are removed, the rest untouched. -/
theorem resetTicketsData_unsortedSegments_eq (st : PalletState) (k : Nat) :
    (resetTicketsData st).unsortedSegments k =
      if k < rustDivCeil st.ticketsMeta.unsorted_tickets_count SEGMENT_MAX_SIZE then []
      else st.unsortedSegments k := rfl

/-- The default metadata has zero counts for both tags. -/
theorem TicketsMetadata.default_ticketsCount (t : Nat) :
    TicketsMetadata.default.ticketsCount t = 0 := by
  unfold TicketsMetadata.ticketsCount TicketsMetadata.default
  split <;> rfl

/-- In the skipped-epochs case the epoch index update resets the
tickets data and adds the number of skipped epochs. -/
theorem enactEpochIndex_skip (c : Config) (st : PalletState)
    (h : c.epochLength ≤ st.currentSlot - epochStart c st (st.epochIndex + 1)) :
    enactEpochIndex c st =
      (resetTicketsData st,
       st.epochIndex + 1 +
         (st.currentSlot - epochStart c st (st.epochIndex + 1)) / c.epochLength) := by
  unfold enactEpochIndex
  dsimp only
  rw [if_pos h]

/-- When no unsorted tickets are outstanding and the previous epoch
half is empty, the tickets maintenance tail of `enact_epoch_change` is
the identity (in particular the metadata is not persisted). -/
theorem enactTickets_noop (c : Config) (st : PalletState)
    (meta : TicketsMetadata) (tag : Nat)
    (h1 : meta.unsorted_tickets_count = 0)
    (h2 : meta.ticketsCount (1 - tag) = 0) :
    enactTickets c st meta tag = st := by
  unfold enactTickets
  dsimp only
  rw [if_neg (show ¬(meta.unsorted_tickets_count ≠ 0) by simp [h1])]
  exact if_neg (fun hc => hc h2)

/-- `epochStart` only depends on the genesis slot, which `enactPrelim`
preserves. -/
@[simp] theorem epochStart_enactPrelim (c : Config) (cr : Crypto)
    (a na : List AuthorityId) (st : PalletState) (e : Nat) :
    epochStart c (enactPrelim cr a na st) e = epochStart c st e := by
  simp [epochStart]


/-- C6: when the slot index relative to the candidate epoch start is at
least `EpochLength`, `enact_epoch_change` resets all tickets data (the
listed ticket bodies of both halves are removed, all unsorted segments
and the sorted candidates are cleared, the metadata — including both
`tickets_count` entries — is zeroed) and the new `EpochIndex` is the old
one plus `1 + slot_idx / EpochLength`.  The segment hypothesis is the
structural storage invariant that no segment exists at or beyond the
segment count. -/
theorem enact_epoch_change_skipped (c : Config) (cr : Crypto)
    (a na : List AuthorityId) (st : PalletState)
    (hskip : c.epochLength ≤ st.currentSlot - epochStart c st (st.epochIndex + 1))
    (hsegs : ∀ k, rustDivCeil st.ticketsMeta.unsorted_tickets_count SEGMENT_MAX_SIZE ≤ k →
      st.unsortedSegments k = []) :
    (enactEpochChange c cr a na st).epochIndex =
      st.epochIndex + 1 +
        (st.currentSlot - epochStart c st (st.epochIndex + 1)) / c.epochLength ∧
    (enactEpochChange c cr a na st).ticketsMeta = TicketsMetadata.default ∧
    (∀ k, (enactEpochChange c cr a na st).unsortedSegments k = []) ∧
    (enactEpochChange c cr a na st).sortedCandidates = [] ∧
    (∀ i id, i < st.ticketsMeta.tickets_count0 → st.ticketsIds 0 i = some id →
      (enactEpochChange c cr a na st).ticketsData id = none) ∧
    (∀ i id, i < st.ticketsMeta.tickets_count1 → st.ticketsIds 1 i = some id →
      (enactEpochChange c cr a na st).ticketsData id = none) := by
  have hskip2 : c.epochLength ≤ (enactPrelim cr a na st).currentSlot -
      epochStart c (enactPrelim cr a na st) ((enactPrelim cr a na st).epochIndex + 1) := by
    simpa using hskip
  unfold enactEpochChange
  dsimp only
  rw [enactEpochIndex_skip c _ hskip2]
  dsimp only
  simp only [resetTicketsData_ticketsMeta]
  rw [enactTickets_noop c _ _ _ (by simp [TicketsMetadata.default])
    (TicketsMetadata.default_ticketsCount _)]
  refine ⟨by simp, by simp, fun k => ?_, by simp, fun i id hi hid => ?_, fun i id hi hid => ?_⟩
  · simp only [enactConfigPromotion_fst_unsortedSegments,
      updateEpochRandomness_fst_unsortedSegments]
    rw [resetTicketsData_unsortedSegments_eq]
    simp only [enactPrelim_ticketsMeta, enactPrelim_unsortedSegments]
    split
    · rfl
    · exact hsegs k (by omega)
  · simp only [enactConfigPromotion_fst_ticketsData,
      updateEpochRandomness_fst_ticketsData]
    rw [resetTicketsData_ticketsData_eq]
    simp only [enactPrelim_ticketsMeta, enactPrelim_ticketsIds]
    exact removeListed_preserves_none _ _ _ _ _
      (removeListed_removes st.ticketsIds 0 _ _ i id hi hid)
  · simp only [enactConfigPromotion_fst_ticketsData,
      updateEpochRandomness_fst_ticketsData]
    rw [resetTicketsData_ticketsData_eq]
    simp only [enactPrelim_ticketsMeta, enactPrelim_ticketsIds]
    exact removeListed_removes st.ticketsIds 1 _ _ i id hi hid

/-- Concrete state for the C6 witness: epoch `k = 0` in progress at
slot 5 with one current-epoch ticket, after which `CurrentSlot` is
advanced by `3 * EpochLength = 30` to slot 35. -/
def c6State : PalletState := { stZero with
  currentSlot := 35
  ticketsMeta := { unsorted_tickets_count := 0, tickets_count0 := 1, tickets_count1 := 0 }
  ticketsIds := fun tag i => if tag = 0 ∧ i = 0 then some 5 else none
  ticketsData := fun id => if id = 5 then some { attempt_idx := 0, extra := 0 } else none }

/-- Witness for C6: starting in epoch 0 with `CurrentSlot` advanced by
three epoch lengths, the rotation sets `EpochIndex = 0 + 3 = 3`, zeroes
the metadata, empties the segments and candidates, and drops the listed
ticket body. -/
theorem enact_epoch_change_skipped_witness :
    (10 : Nat) ≤ c6State.currentSlot - epochStart ⟨10⟩ c6State (c6State.epochIndex + 1) ∧
    (enactEpochChange ⟨10⟩ cryptoZ [] [] c6State).epochIndex = 3 ∧
    (enactEpochChange ⟨10⟩ cryptoZ [] [] c6State).ticketsMeta = TicketsMetadata.default ∧
    (enactEpochChange ⟨10⟩ cryptoZ [] [] c6State).ticketsData 5 = none := by
  have h := enact_epoch_change_skipped ⟨10⟩ cryptoZ [] [] c6State (by decide)
    (fun k hk => rfl)
  refine ⟨by decide, ?_, h.2.1, ?_⟩
  · rw [h.1]; decide
  · exact h.2.2.2.2.1 0 5 (by decide) (by decide)


/-- The outside-in index formula exactly as stated in the
specification: `idx(s) = 2 s + 1` for `s < L / 2` and
`idx(s) = 2 (L - 1 - s)` otherwise. -/
def outsideInIdx (epochLen s : Nat) : Nat :=
  if s < epochLen / 2 then 2 * s + 1 else 2 * (epochLen - 1 - s)

/-- For slot indices inside the epoch and epoch lengths fitting `u32`,
the code's ticket index (with its `as u32` cast) equals the
specification formula. -/
theorem getTicketIdx_eq (L s : Nat) (hL : L ≤ 2 ^ 32) (hs : s < L) :
    getTicketIdx L s = outsideInIdx L s := by
  unfold getTicketIdx outsideInIdx
  have h1 : (if s < L / 2 then 2 * s + 1 else 2 * (L - (s + 1))) < 2 ^ 32 := by
    split <;> omega
  rw [Nat.mod_eq_of_lt h1]
  split
  · rfl
  · omega

/-- C3: for a slot whose index relative to the current epoch start lies
in `[0, EpochLength)`, `slot_ticket_id` returns
`TicketsIds[(epoch_tag, idx(s))]` for the outside-in index `idx(s)`,
and `None` when `idx(s)` is at or beyond the current epoch's tickets
count; the state is left untouched. -/
theorem slot_ticket_id_current_epoch (c : Config) (slot : Nat)
    (st : PalletState) (hblock : 1 ≤ st.blockNumber)
    (hlen : c.epochLength ≤ 2 ^ 32)
    (hslot : slotIndexOf c st slot < c.epochLength) :
    ((slotTicketId c slot st).1 =
      if outsideInIdx c.epochLength (slotIndexOf c st slot) <
          st.ticketsMeta.ticketsCount (st.epochIndex % 2)
      then st.ticketsIds (st.epochIndex % 2)
        (outsideInIdx c.epochLength (slotIndexOf c st slot))
      else none) ∧
    (slotTicketId c slot st).2 = st := by
  unfold slotTicketId
  rw [if_neg (by omega : ¬ st.blockNumber < 1)]
  dsimp only
  rw [if_neg (by omega :
    ¬(c.epochLength ≤ slotIndexOf c st slot ∧
      slotIndexOf c st slot < 2 * c.epochLength))]
  rw [if_neg (by omega : ¬(2 * c.epochLength ≤ slotIndexOf c st slot))]
  rw [getTicketIdx_eq _ _ hlen hslot]
  constructor
  · split
    · rfl
    · rfl
  · split
    · rfl
    · rfl

/-- Concrete state for the C3 witness: four sorted current-epoch
tickets `[10, 20, 30, 40]` with `EpochLength = 4`. -/
def c3State : PalletState := { stZero with
  ticketsMeta := { unsorted_tickets_count := 0, tickets_count0 := 4, tickets_count1 := 0 }
  ticketsIds := fun tag i => if tag = 0 ∧ i < 4 then some (10 * (i + 1)) else none }

/-- Witness for C3 (outside-in assignment): with sorted ids
`[t0, t1, t2, t3] = [10, 20, 30, 40]` and `EpochLength = 4`, the slots
map as `s = 0 → t1`, `s = 1 → t3`, `s = 2 → t2`, `s = 3 → t0`. -/
theorem slot_ticket_id_current_epoch_witness :
    (slotTicketId ⟨4⟩ 0 c3State).1 = some 20 ∧
    (slotTicketId ⟨4⟩ 1 c3State).1 = some 40 ∧
    (slotTicketId ⟨4⟩ 2 c3State).1 = some 30 ∧
    (slotTicketId ⟨4⟩ 3 c3State).1 = some 10 := by
  refine ⟨?_, ?_, ?_, ?_⟩ <;>
  · rw [(slot_ticket_id_current_epoch _ _ _ (by decide) (by decide) (by decide)).1]
    decide

/-- C10: `slot_ticket_id` returns `None` before the first block; for a
slot strictly before the current epoch start (the saturated slot index
`u64::MAX` falls into the beyond-two-epochs branch, given that
`2 * EpochLength` fits `u64`); and for a slot at or beyond two epoch
lengths past the current epoch start. -/
theorem slot_ticket_id_none_cases (c : Config) (slot : Nat)
    (st : PalletState) (h2L : 2 * c.epochLength < 2 ^ 64) :
    (st.blockNumber < 1 → (slotTicketId c slot st).1 = none) ∧
    (1 ≤ st.blockNumber → slot < currentEpochStart c st →
      (slotTicketId c slot st).1 = none) ∧
    (1 ≤ st.blockNumber → currentEpochStart c st + 2 * c.epochLength ≤ slot →
      (slotTicketId c slot st).1 = none) := by
  refine ⟨fun h => ?_, fun hb hlt => ?_, fun hb hge => ?_⟩
  · unfold slotTicketId
    rw [if_pos h]
  · have hidx : slotIndexOf c st slot = u64MAX := by
      unfold slotIndexOf
      rw [if_pos hlt]
    unfold slotTicketId
    rw [if_neg (by omega : ¬ st.blockNumber < 1)]
    dsimp only
    rw [hidx]
    rw [if_neg (by simp only [u64MAX]; omega :
      ¬(c.epochLength ≤ u64MAX ∧ u64MAX < 2 * c.epochLength))]
    rw [if_pos (by simp only [u64MAX]; omega : 2 * c.epochLength ≤ u64MAX)]
  · have hidx : slotIndexOf c st slot = slot - currentEpochStart c st := by
      unfold slotIndexOf
      rw [if_neg (by omega)]
    unfold slotTicketId
    rw [if_neg (by omega : ¬ st.blockNumber < 1)]
    dsimp only
    rw [hidx]
    rw [if_neg (by omega :
      ¬(c.epochLength ≤ slot - currentEpochStart c st ∧
        slot - currentEpochStart c st < 2 * c.epochLength))]
    rw [if_pos (by omega : 2 * c.epochLength ≤ slot - currentEpochStart c st)]

/-- Witness for C10: with `EpochLength = 10`, `GenesisSlot = 5` and
`EpochIndex = 1` (epoch start 15), lookups return `None` before block
1, at slot 3 (before the epoch start) and at slot 35 (two epochs past
the start). -/
theorem slot_ticket_id_none_cases_witness :
    (slotTicketId ⟨10⟩ 0 { stZero with blockNumber := 0 }).1 = none ∧
    (slotTicketId ⟨10⟩ 3
      { stZero with epochIndex := 1, genesisSlot := 5 }).1 = none ∧
    (slotTicketId ⟨10⟩ 35
      { stZero with epochIndex := 1, genesisSlot := 5 }).1 = none :=
  ⟨(slot_ticket_id_none_cases ⟨10⟩ 0 _ (by decide)).1 (by decide),
   (slot_ticket_id_none_cases ⟨10⟩ 3 _ (by decide)).2.1 (by decide) (by decide),
   (slot_ticket_id_none_cases ⟨10⟩ 35 _ (by decide)).2.2 (by decide) (by decide)⟩


/-- `append_tickets` does not touch the ticket bodies map. -/
@[simp] theorem appendTickets_ticketsData (st : PalletState)
    (tickets : List TicketId) :
    (appendTickets st tickets).ticketsData = st.ticketsData := rfl

/-- One envelope step never removes or overwrites an existing ticket
body. -/
theorem processTicket_mono (cr : Crypto) (verifier threshold : Nat)
    (randomness : Randomness) (epochIdx : Nat)
    (acc : (TicketId → Option TicketBody) × List TicketId)
    (e : TicketEnvelope) (t : TicketId) (b : TicketBody)
    (h : acc.1 t = some b) :
    (processTicket cr verifier threshold randomness epochIdx acc e).1 t = some b := by
  unfold processTicket
  cases hout : e.signature.outputs.head? with
  | none => exact h
  | some out =>
    dsimp only
    split
    · exact h
    · split
      · exact h
      · split
        · rename_i hns _
          dsimp only
          by_cases ht : t = cr.makeTicketId
              (cr.ticketIdInput randomness e.body.attempt_idx epochIdx) out
          · rw [← ht] at hns
            simp [h] at hns
          · simp [ht, h]
        · exact h

/-- The envelope loop never removes or overwrites an existing ticket
body. -/
theorem foldProcess_mono (cr : Crypto) (verifier threshold : Nat)
    (randomness : Randomness) (epochIdx : Nat) :
    ∀ (tickets : List TicketEnvelope)
      (acc : (TicketId → Option TicketBody) × List TicketId)
      (t : TicketId) (b : TicketBody), acc.1 t = some b →
      (tickets.foldl (processTicket cr verifier threshold randomness epochIdx) acc).1 t = some b := by
  intro tickets
  induction tickets with
  | nil => intro acc t b h; exact h
  | cons e rest ih =>
    intro acc t b h
    rw [List.foldl_cons]
    exact ih _ t b (processTicket_mono cr verifier threshold randomness epochIdx acc e t b h)

/-- C5: in-block dispatch of `submit_tickets` with unsigned origin.
The call errors (with the message `Ring verifier key not initialized`)
exactly when `RingVerifierData` is absent; with a verifier present it
returns `Ok` with `Pays::No` no matter how many envelopes are invalid,
and the final state retains every ticket body present before the call
(insertions made for earlier envelopes of the batch are never rolled
back).  Moreover an envelope failing any of its checks — missing VRF
output, over threshold, duplicate id, failed ring-VRF proof — leaves
the loop accumulator (state and collected tickets) completely
unchanged. -/
theorem submit_tickets_error_handling (c : Config) (cr : Crypto)
    (st : PalletState) (tickets : List TicketEnvelope) :
    (submitTickets c cr st tickets =
        Except.error "Ring verifier key not initialized" ↔
      st.ringVerifierData = none) ∧
    (∀ v, st.ringVerifierData = some v →
      ∃ st2, submitTickets c cr st tickets = Except.ok (Pays.No, st2) ∧
        ∀ t b, st.ticketsData t = some b → st2.ticketsData t = some b) ∧
    (∀ (verifier threshold : Nat) (randomness : Randomness) (epochIdx : Nat)
       (acc : (TicketId → Option TicketBody) × List TicketId)
       (e : TicketEnvelope),
      (e.signature.outputs.head? = none →
        processTicket cr verifier threshold randomness epochIdx acc e = acc) ∧
      (∀ out, e.signature.outputs.head? = some out →
        threshold ≤ cr.makeTicketId
          (cr.ticketIdInput randomness e.body.attempt_idx epochIdx) out →
        processTicket cr verifier threshold randomness epochIdx acc e = acc) ∧
      (∀ out, e.signature.outputs.head? = some out →
        (acc.1 (cr.makeTicketId
          (cr.ticketIdInput randomness e.body.attempt_idx epochIdx) out)).isSome →
        processTicket cr verifier threshold randomness epochIdx acc e = acc) ∧
      (∀ out, e.signature.outputs.head? = some out →
        cr.ringVrfVerify e.signature
          (cr.ticketBodySignData e.body
            (cr.ticketIdInput randomness e.body.attempt_idx epochIdx)) verifier = false →
        processTicket cr verifier threshold randomness epochIdx acc e = acc)) := by
  refine ⟨?_, ?_, ?_⟩
  · cases hv : st.ringVerifierData <;> simp [submitTickets, hv]
  · intro v hv
    unfold submitTickets
    rw [hv]
    dsimp only
    refine ⟨_, rfl, fun t b hb => ?_⟩
    split <;> simp only [appendTickets_ticketsData] <;>
      exact foldProcess_mono cr v (submitThreshold c cr st) st.nextRandomness
        (st.epochIndex + 1) tickets (st.ticketsData, []) t b hb
  · intro verifier threshold randomness epochIdx acc e
    refine ⟨fun hout => ?_, fun out hout hth => ?_, fun out hout hdup => ?_,
      fun out hout hvf => ?_⟩
    · unfold processTicket
      rw [hout]
    · unfold processTicket
      rw [hout]
      dsimp only
      rw [if_pos hth]
    · unfold processTicket
      rw [hout]
      dsimp only
      split
      · rfl
      · simp [hdup]
    · unfold processTicket
      rw [hout]
      dsimp only
      split
      · rfl
      · split
        · rfl
        · rw [if_neg (by simp [hvf])]

/-- Concrete state for the C5 witness: verifier installed and one
pre-existing ticket body with id 3. -/
def c5State : PalletState := { stZero with
  ringVerifierData := some 0
  ticketsData := fun t => if t = 3 then some { attempt_idx := 0, extra := 0 } else none }

/-- Witness for C5: on `stZero` (no verifier) the call errors; on
`c5State` it succeeds with `Pays::No` even though the batch holds one
envelope with no VRF output, and the pre-existing ticket body
survives. -/
theorem submit_tickets_error_handling_witness :
    submitTickets ⟨10⟩ cryptoZ stZero [] =
      Except.error "Ring verifier key not initialized" ∧
    (∃ st2, submitTickets ⟨10⟩ cryptoZ c5State
        [{ body := { attempt_idx := 0, extra := 0 }, signature := { outputs := [], proof := 0 } }] =
        Except.ok (Pays.No, st2) ∧
      st2.ticketsData 3 = some { attempt_idx := 0, extra := 0 }) := by
  constructor
  · exact (submit_tickets_error_handling ⟨10⟩ cryptoZ stZero []).1.mpr rfl
  · obtain ⟨st2, hok, hmono⟩ := (submit_tickets_error_handling ⟨10⟩ cryptoZ c5State
      [{ body := { attempt_idx := 0, extra := 0 }, signature := { outputs := [], proof := 0 } }]).2.1 0 rfl
    exact ⟨st2, hok, hmono 3 _ rfl⟩


/-- Invariant of the envelope loop: every collected ticket id has a
body in the map, the collected list stays duplicate-free, bodies are
never lost, and an id whose body already existed (and was not
collected) is never collected. -/
theorem foldProcess_collected (cr : Crypto) (verifier threshold : Nat)
    (randomness : Randomness) (epochIdx : Nat) :
    ∀ (tickets : List TicketEnvelope)
      (acc : (TicketId → Option TicketBody) × List TicketId),
      (∀ t ∈ acc.2, (acc.1 t).isSome) → acc.2.Nodup →
      (∀ t ∈ (tickets.foldl
          (processTicket cr verifier threshold randomness epochIdx) acc).2,
        ((tickets.foldl
          (processTicket cr verifier threshold randomness epochIdx) acc).1 t).isSome) ∧
      (tickets.foldl
        (processTicket cr verifier threshold randomness epochIdx) acc).2.Nodup ∧
      (∀ t, (acc.1 t).isSome →
        ((tickets.foldl
          (processTicket cr verifier threshold randomness epochIdx) acc).1 t).isSome) ∧
      (∀ t, t ∉ acc.2 → (acc.1 t).isSome →
        t ∉ (tickets.foldl
          (processTicket cr verifier threshold randomness epochIdx) acc).2) := by
  intro tickets
  induction tickets with
  | nil =>
    intro acc h1 h2
    exact ⟨h1, h2, fun t ht => ht, fun t ht _ => ht⟩
  | cons e rest ih =>
    intro acc h1 h2
    rw [List.foldl_cons]
    set tid := cr.makeTicketId
      (cr.ticketIdInput randomness e.body.attempt_idx epochIdx) with htid
    have hstep : processTicket cr verifier threshold randomness epochIdx acc e = acc ∨
        ∃ out, e.signature.outputs.head? = some out ∧
          (acc.1 (tid out)).isSome = false ∧
          processTicket cr verifier threshold randomness epochIdx acc e =
            (fun t => if t = tid out then some e.body else acc.1 t,
             acc.2 ++ [tid out]) := by
      unfold processTicket
      cases hout : e.signature.outputs.head? with
      | none => exact Or.inl rfl
      | some out =>
        dsimp only
        split
        · exact Or.inl rfl
        · split
          · exact Or.inl rfl
          · split
            · rename_i hdup _
              exact Or.inr ⟨out, rfl, by simpa using hdup, rfl⟩
            · exact Or.inl rfl
    rcases hstep with heq | ⟨out, hout, hnew, heq⟩
    · rw [heq]
      exact ih acc h1 h2
    · rw [heq]
      have hnotin : tid out ∉ acc.2 := by
        intro hmem
        have := h1 _ hmem
        rw [hnew] at this
        cases this
      have h1n : ∀ t ∈ acc.2 ++ [tid out],
          ((fun t => if t = tid out then some e.body else acc.1 t) t).isSome := by
        intro t ht
        rcases List.mem_append.mp ht with hmem | hmem
        · by_cases hteq : t = tid out <;> simp [hteq, h1 _ hmem]
        · simp [List.mem_singleton.mp hmem]
      have h2n : (acc.2 ++ [tid out]).Nodup := by
        simp [List.nodup_append, h2, hnotin]
      obtain ⟨g1, g2, g3, g4⟩ := ih
        (fun t => if t = tid out then some e.body else acc.1 t,
         acc.2 ++ [tid out]) h1n h2n
      refine ⟨g1, g2, fun t ht => ?_, fun t htn hts => ?_⟩
      · apply g3
        by_cases hteq : t = tid out <;> simp [hteq, ht]
      · have htneq : t ≠ tid out := by
          intro hteq
          rw [hteq] at hts
          rw [hnew] at hts
          cases hts
        apply g4
        · simp [htneq, htn]
        · simp [htneq, hts]

/-- C8: duplicate envelopes are skipped before verification and never
inserted twice: with a verifier present, `submit_tickets` succeeds, the
collected `valid_tickets` vector is duplicate-free, every collected id
has its body stored in the final state, and an id whose body already
existed before the call (in this batch's sense, a duplicate from a
previous call of the same epoch) is never collected again. -/
theorem submit_tickets_duplicate_rejection (c : Config) (cr : Crypto)
    (st : PalletState) (tickets : List TicketEnvelope) (v : Nat)
    (hv : st.ringVerifierData = some v) :
    ∃ st2, submitTickets c cr st tickets = Except.ok (Pays.No, st2) ∧
      (submitValidTickets c cr st tickets).Nodup ∧
      (∀ t, t ∈ submitValidTickets c cr st tickets →
        (st2.ticketsData t).isSome) ∧
      (∀ t, (st.ticketsData t).isSome →
        t ∉ submitValidTickets c cr st tickets) := by
  obtain ⟨g1, g2, g3, g4⟩ := foldProcess_collected cr v (submitThreshold c cr st)
    st.nextRandomness (st.epochIndex + 1) tickets (st.ticketsData, [])
    (fun t ht => absurd ht (List.not_mem_nil t)) List.nodup_nil
  unfold submitTickets submitValidTickets
  rw [hv]
  dsimp only
  refine ⟨_, rfl, g2, fun t ht => ?_, fun t ht => g4 t (List.not_mem_nil t) ht⟩
  split <;> simp only [appendTickets_ticketsData] <;> exact g1 t ht

/-- Witness for C8: the same valid envelope submitted twice in one
batch is collected exactly once and stored once. -/
theorem submit_tickets_duplicate_rejection_witness :
    (∃ st2, submitTickets ⟨10⟩ cryptoZ
        { stZero with ringVerifierData := some 0 }
        [{ body := { attempt_idx := 0, extra := 0 }, signature := { outputs := [5], proof := 0 } },
         { body := { attempt_idx := 0, extra := 0 }, signature := { outputs := [5], proof := 0 } }] =
        Except.ok (Pays.No, st2) ∧
      (st2.ticketsData 6).isSome) ∧
    submitValidTickets ⟨10⟩ cryptoZ { stZero with ringVerifierData := some 0 }
      [{ body := { attempt_idx := 0, extra := 0 }, signature := { outputs := [5], proof := 0 } },
       { body := { attempt_idx := 0, extra := 0 }, signature := { outputs := [5], proof := 0 } }] = [6] := by
  have h := submit_tickets_duplicate_rejection ⟨10⟩ cryptoZ
    { stZero with ringVerifierData := some 0 }
    [{ body := { attempt_idx := 0, extra := 0 }, signature := { outputs := [5], proof := 0 } },
     { body := { attempt_idx := 0, extra := 0 }, signature := { outputs := [5], proof := 0 } }] 0 rfl
  obtain ⟨st2, hok, _, hall, _⟩ := h
  refine ⟨⟨st2, hok, hall 6 ?_⟩, by decide⟩
  rw [show submitValidTickets ⟨10⟩ cryptoZ { stZero with ringVerifierData := some 0 }
    [{ body := { attempt_idx := 0, extra := 0 }, signature := { outputs := [5], proof := 0 } },
     { body := { attempt_idx := 0, extra := 0 }, signature := { outputs := [5], proof := 0 } }] = [6] from by decide]
  exact List.mem_singleton.mpr rfl


/-! C7 infrastructure: ghost predicates describing the segmented sorter. -/

/-- Number of elements of a list strictly below `d`. -/
def countLt (l : List TicketId) (d : TicketId) : Nat :=
  l.countP (fun x => decide (x < d))

/-- Concatenation of the first `n` segments. -/
def segJoin (segs : Nat → List TicketId) (n : Nat) : List TicketId :=
  ((List.range n).map segs).flatten

/-- The bin-packing shape maintained by `append_tickets` and preserved
by the sorter: all segments below the cursor are full, the cursor
segment holds the remainder, everything past it is empty. -/
def Packed (segs : Nat → List TicketId) (count : Nat) : Prop :=
  (∀ k, k < count / SEGMENT_MAX_SIZE → (segs k).length = SEGMENT_MAX_SIZE) ∧
  (segs (count / SEGMENT_MAX_SIZE)).length = count % SEGMENT_MAX_SIZE ∧
  (∀ k, count / SEGMENT_MAX_SIZE < k → segs k = [])

/-- The ticket ids still physically present in the sorter: candidates
plus the remaining segments. -/
def present (acc : SortAcc) : List TicketId :=
  acc.candidates ++ segJoin acc.unsortedSegments acc.segCount

/-- Core invariant of the segment loop of `sort_tickets`, relative to
the admitted id multiset `A`: everything present is admitted and
duplicate-free, segments are packed and counted, and every id no longer
present is outranked by `mt` smaller candidates (or is the maximal
id). -/
structure PostInv (mt : Nat) (A : List TicketId) (acc : SortAcc) : Prop where
  nodupA : A.Nodup
  boundA : ∀ x ∈ A, x ≤ TicketIdMAX
  packed : Packed acc.unsortedSegments acc.meta.unsorted_tickets_count
  segCount_eq : acc.segCount =
    rustDivCeil acc.meta.unsorted_tickets_count SEGMENT_MAX_SIZE
  count_eq : acc.meta.unsorted_tickets_count =
    (segJoin acc.unsortedSegments acc.segCount).length
  nodupP : (present acc).Nodup
  subA : ∀ x ∈ present acc, x ∈ A
  dropJust : ∀ d ∈ A, d ∉ present acc →
    mt ≤ countLt acc.candidates d ∨ d = TicketIdMAX
  candLen : acc.candidates.length ≤ mt

/-- Full invariant carried through the segment loop, strengthening
`PostInv` with the upper-bound and pending-sort bookkeeping. -/
structure AccInv (mt : Nat) (A : List TicketId) (acc : SortAcc)
    extends PostInv mt A acc : Prop where
  ubInv : acc.upperBound = TicketIdMAX ∨
    (acc.candidates.length = mt ∧ ∀ x ∈ acc.candidates, x ≤ acc.upperBound)
  reqSort : acc.requireSort = false →
    acc.candidates.Sorted (· ≤ ·) ∧ acc.candidates.length = mt

/-- The ids physically present in a pallet state (sorted candidates
plus remaining segments). -/
def stPresent (st : PalletState) : List TicketId :=
  st.sortedCandidates ++ segJoin st.unsortedSegments
    (rustDivCeil st.ticketsMeta.unsorted_tickets_count SEGMENT_MAX_SIZE)

/-- Cross-call invariant of the segmented sorter, relative to the
admitted id multiset `A`: the candidates are a sorted list of at most
`MaxTickets` ids, segments are packed, everything present is admitted
and duplicate-free, and every admitted id no longer present was
outranked by `MaxTickets` smaller candidates when it was dropped (or is
the maximal id, which a non-full sorter also drops). -/
structure SortInv (c : Config) (A : List TicketId) (st : PalletState) : Prop where
  nodupA : A.Nodup
  boundA : ∀ x ∈ A, x ≤ TicketIdMAX
  packed : Packed st.unsortedSegments st.ticketsMeta.unsorted_tickets_count
  nodupP : (stPresent st).Nodup
  subA : ∀ x ∈ stPresent st, x ∈ A
  dropJust : ∀ d ∈ A, d ∉ stPresent st →
    c.maxTickets ≤ countLt st.sortedCandidates d ∨ d = TicketIdMAX
  candLen : st.sortedCandidates.length ≤ c.maxTickets
  candSorted : st.sortedCandidates.Sorted (· ≤ ·)

/-- `countLt` distributes over append. -/
theorem countLt_append (l1 l2 : List TicketId) (d : TicketId) :
    countLt (l1 ++ l2) d = countLt l1 d + countLt l2 d :=
  List.countP_append _ _ _

/-- `countLt` is invariant under permutation. -/
theorem countLt_perm {l1 l2 : List TicketId} (h : List.Perm l1 l2) (d : TicketId) :
    countLt l1 d = countLt l2 d :=
  h.countP_eq _

/-- `countLt` is monotone under subpermutation. -/
theorem countLt_subperm {l1 l2 : List TicketId} (h : List.Subperm l1 l2) (d : TicketId) :
    countLt l1 d ≤ countLt l2 d :=
  List.Subperm.countP_le _ h

/-- When every element is below `d`, `countLt` is the length. -/
theorem countLt_eq_length {l : List TicketId} {d : TicketId}
    (h : ∀ x ∈ l, x < d) : countLt l d = l.length :=
  List.countP_eq_length.mpr (fun x hx => by simpa using h x hx)

/-- `countLt` never exceeds the length. -/
theorem countLt_le_length (l : List TicketId) (d : TicketId) :
    countLt l d ≤ l.length :=
  List.countP_le_length _

/-- When `countLt` reaches the length, every element is below `d`. -/
theorem all_lt_of_countLt {l : List TicketId} {d : TicketId}
    (h : l.length ≤ countLt l d) : ∀ x ∈ l, x < d := by
  have h2 : countLt l d = l.length := Nat.le_antisymm (countLt_le_length l d) h
  unfold countLt at h2
  have h3 := List.countP_eq_length.mp h2
  intro x hx
  simpa using h3 x hx

/-- A subpermutation of a duplicate-free list is duplicate-free. -/
theorem subperm_nodup {l1 l2 : List TicketId} (h : List.Subperm l1 l2)
    (h2 : l2.Nodup) : l1.Nodup := by
  obtain ⟨l, hp, hs⟩ := h
  exact hp.nodup (hs.nodup h2)

/-- Unfolding lemma: the join of the first `n + 1` segments. -/
theorem segJoin_succ (segs : Nat → List TicketId) (n : Nat) :
    segJoin segs (n + 1) = segJoin segs n ++ segs n := by
  unfold segJoin
  rw [List.range_succ, List.map_append, List.flatten_append]
  simp

/-- Segment join only depends on the segments below the bound. -/
theorem segJoin_congr {segs segs2 : Nat → List TicketId} {n : Nat}
    (h : ∀ k, k < n → segs k = segs2 k) :
    segJoin segs n = segJoin segs2 n := by
  unfold segJoin
  congr 1
  apply List.map_congr_left
  intro k hk
  exact h k (List.mem_range.mp hk)

/-- In a `≤`-sorted list with at least `mt` elements below `d`, the
first `mt` elements are all below `d`. -/
theorem take_lt_of_sorted_countLt :
    ∀ (l : List TicketId), l.Sorted (· ≤ ·) →
    ∀ (d : TicketId) (mt : Nat), mt ≤ countLt l d →
    ∀ x ∈ l.take mt, x < d := by
  intro l
  induction l with
  | nil => intro _ d mt _ x hx; simp at hx
  | cons a t ih =>
    intro hs d mt hcount x hx
    by_cases ha : a < d
    · cases mt with
      | zero => simp at hx
      | succ m =>
        rw [List.take_succ_cons] at hx
        rcases List.mem_cons.mp hx with rfl | hx2
        · exact ha
        · refine ih hs.of_cons d m ?_ x hx2
          have hstep : countLt (a :: t) d = countLt t d + 1 := by
            unfold countLt
            rw [List.countP_cons]
            simp [ha]
          omega
    · exfalso
      have hz : countLt (a :: t) d = 0 := by
        unfold countLt
        rw [List.countP_eq_zero]
        intro y hy
        rcases List.mem_cons.mp hy with rfl | hy2
        · simpa using ha
        · have hay : a ≤ y := (List.pairwise_cons.mp hs).1 y hy2
          simp only [decide_eq_true_eq]
          exact fun hyd => ha (lt_of_le_of_lt hay hyd)
      have hmt : mt = 0 := by omega
      rw [hmt] at hx
      simp at hx
  
/-- A `≤`-sorted duplicate-free list whose elements all precede every
admitted id outside it is an initial run of the sorted admitted list. -/
theorem final_take_eq (A cands : List TicketId) (hA : A.Nodup)
    (hnd : cands.Nodup) (hsub : ∀ x ∈ cands, x ∈ A)
    (hsort : cands.Sorted (· ≤ ·))
    (hlt : ∀ x ∈ cands, ∀ d ∈ A, d ∉ cands → x < d) :
    cands = (List.insertionSort (· ≤ ·) A).take cands.length := by
  set B := List.insertionSort (· ≤ ·) A with hB
  have hBA : List.Perm B A := List.perm_insertionSort _ _
  have hBnd : B.Nodup := hBA.symm.nodup hA
  have hBsort : B.Sorted (· ≤ ·) := List.sorted_insertionSort _ _
  have hf1 : List.Perm (B.filter (fun x => decide (x ∈ cands))) cands := by
    rw [List.perm_ext_iff_of_nodup (hBnd.filter _) hnd]
    intro x
    simp only [List.mem_filter, decide_eq_true_eq]
    constructor
    · exact fun h => h.2
    · intro h
      exact ⟨hBA.mem_iff.mpr (hsub x h), h⟩
  have hsplit : List.Perm (B.filter (fun x => decide (x ∈ cands)) ++
      B.filter (fun x => !decide (x ∈ cands))) B :=
    List.filter_append_perm _ B
  have hperm : List.Perm (cands ++ B.filter (fun x => !decide (x ∈ cands))) B :=
    ((hf1.symm).append_right _).trans hsplit
  have hsorted2 : (cands ++ B.filter (fun x => !decide (x ∈ cands))).Sorted (· ≤ ·) := by
    rw [List.Sorted, List.pairwise_append]
    refine ⟨hsort, hBsort.filter _, ?_⟩
    intro x hx y hy
    have hy2 := List.mem_filter.mp hy
    have hyB : y ∈ A := hBA.subset hy2.1
    have hyc : y ∉ cands := by simpa using hy2.2
    exact Nat.le_of_lt (hlt x hx y hyB hyc)
  have heq : cands ++ B.filter (fun x => !decide (x ∈ cands)) = B :=
    List.eq_of_perm_of_sorted hperm hsorted2 hBsort
  rw [← heq, List.take_left]


/-- Characterization of the inner segment loop: the candidates pick up
exactly the ids below the upper bound, in order. -/
theorem pushSegment_fst (ub : TicketId) :
    ∀ (seg cands : List TicketId) (data : TicketId → Option TicketBody),
      (pushSegment ub seg cands data).1 =
        cands ++ seg.filter (fun id => decide (id < ub)) := by
  intro seg
  induction seg with
  | nil => intro cands data; simp [pushSegment]
  | cons id rest ih =>
    intro cands data
    unfold pushSegment
    by_cases h : id < ub
    · rw [if_pos h, ih, List.filter_cons, if_pos (by simpa using h)]
      simp
    · rw [if_neg h, ih, List.filter_cons, if_neg (by simpa using h)]

/-- A positive counter needs a positive number of segments. -/
theorem rustDivCeil_pos {a b : Nat} (h : 0 < a) : 0 < rustDivCeil a b := by
  unfold rustDivCeil
  by_cases hm : a % b = 0
  · rw [if_pos hm]
    rcases Nat.eq_zero_or_pos b with rfl | hb
    · simp at hm
      exact absurd hm (by omega)
    · have hd := Nat.div_pos (Nat.le_of_dvd h (Nat.dvd_of_mod_eq_zero hm)) hb
      exact Nat.lt_of_lt_of_le hd (Nat.le_add_right _ _)
  · rw [if_neg hm]
    exact Nat.succ_pos _

/-- Consuming the top segment of a packed segment map keeps it packed,
decrements the segment count, and removes a nonempty segment. -/
theorem packed_step {segs : Nat → List TicketId} {count : Nat}
    (h : Packed segs count) (hpos : 0 < count) :
    0 < (segs (rustDivCeil count SEGMENT_MAX_SIZE - 1)).length ∧
    (segs (rustDivCeil count SEGMENT_MAX_SIZE - 1)).length ≤ count ∧
    rustDivCeil (count - (segs (rustDivCeil count SEGMENT_MAX_SIZE - 1)).length)
        SEGMENT_MAX_SIZE = rustDivCeil count SEGMENT_MAX_SIZE - 1 ∧
    Packed (fun k => if k = rustDivCeil count SEGMENT_MAX_SIZE - 1 then []
        else segs k)
      (count - (segs (rustDivCeil count SEGMENT_MAX_SIZE - 1)).length) := by
  obtain ⟨hfull, hlast, hbeyond⟩ := h
  simp only [Packed, SEGMENT_MAX_SIZE, rustDivCeil] at *
  by_cases hmod : count % 128 = 0
  · have h0 : (if count % 128 = 0 then (0:Nat) else 1) = 0 := by simp [hmod]
    simp only [h0, Nat.add_zero]
    have hdiv : 0 < count / 128 := by omega
    have hlen : (segs (count / 128 - 1)).length = 128 := hfull _ (by omega)
    simp only [hlen]
    have he1 : (count - 128) / 128 = count / 128 - 1 := by omega
    have he2 : (count - 128) % 128 = 0 := by omega
    have h02 : (if (count - 128) % 128 = 0 then (0:Nat) else 1) = 0 := by simp [he2]
    refine ⟨by omega, by omega, by simp only [he1, h02]; omega, ?_, ?_, ?_⟩
    · intro k hk
      rw [he1] at hk
      rw [if_neg (by omega)]
      exact hfull _ (by omega)
    · simp only [he1, he2]
      simp
    · intro k hk
      rw [he1] at hk
      rw [if_neg (by omega)]
      rcases Nat.lt_or_ge (count / 128) k with hgt | hle
      · exact hbeyond k hgt
      · have hkeq : k = count / 128 := by omega
        rw [hkeq]
        exact List.length_eq_zero.mp (by rw [hlast, hmod])
  · have h1 : (if count % 128 = 0 then (0:Nat) else 1) = 1 := by simp [hmod]
    simp only [h1, Nat.add_sub_cancel]
    simp only [hlast]
    have hmodpos : 0 < count % 128 := by omega
    have he1 : (count - count % 128) / 128 = count / 128 := by omega
    have he2 : (count - count % 128) % 128 = 0 := by omega
    have h02 : (if (count - count % 128) % 128 = 0 then (0:Nat) else 1) = 0 := by simp [he2]
    refine ⟨by omega, by omega, by simp only [he1, h02]; omega, ?_, ?_, ?_⟩
    · intro k hk
      rw [he1] at hk
      rw [if_neg (by omega)]
      exact hfull _ hk
    · simp only [he1, he2]
      simp
    · intro k hk
      rw [he1] at hk
      rw [if_neg (by omega)]
      exact hbeyond k hk

/-- The total length of a packed segment map is its counter. -/
theorem packed_segJoin_length :
    ∀ (count : Nat) (segs : Nat → List TicketId), Packed segs count →
      (segJoin segs (rustDivCeil count SEGMENT_MAX_SIZE)).length = count := by
  intro count
  induction count using Nat.strong_induction_on with
  | _ count ih =>
    intro segs h
    rcases Nat.eq_zero_or_pos count with hz | hpos
    · subst hz
      simp [rustDivCeil, segJoin]
    · obtain ⟨htop, hle, hdec, hpacked⟩ := packed_step h hpos
      have hscpos : 0 < rustDivCeil count SEGMENT_MAX_SIZE := rustDivCeil_pos hpos
      have hstep := ih (count - (segs (rustDivCeil count SEGMENT_MAX_SIZE - 1)).length)
        (by omega) _ hpacked
      rw [hdec] at hstep
      have hcongr : segJoin (fun k => if k = rustDivCeil count SEGMENT_MAX_SIZE - 1
          then [] else segs k) (rustDivCeil count SEGMENT_MAX_SIZE - 1) =
          segJoin segs (rustDivCeil count SEGMENT_MAX_SIZE - 1) :=
        segJoin_congr (fun k hk => by rw [if_neg (by omega)])
      rw [hcongr] at hstep
      have hsplit : segJoin segs (rustDivCeil count SEGMENT_MAX_SIZE) =
          segJoin segs (rustDivCeil count SEGMENT_MAX_SIZE - 1) ++
            segs (rustDivCeil count SEGMENT_MAX_SIZE - 1) := by
        conv_lhs => rw [show rustDivCeil count SEGMENT_MAX_SIZE =
          (rustDivCeil count SEGMENT_MAX_SIZE - 1) + 1 by omega]
        exact segJoin_succ _ _
      rw [hsplit, List.length_append, hstep]
      omega

/-- In a `≤`-sorted list of length `mt`, every element is at most the
element at index `mt - 1` (the last). -/
theorem sorted_le_getD_last (l : List TicketId) (mt : Nat)
    (hs : l.Sorted (· ≤ ·)) (hlen : l.length = mt) (hmt : 0 < mt) :
    ∀ x ∈ l, x ≤ l.getD (mt - 1) TicketIdMAX := by
  intro x hx
  obtain ⟨i, hi, hget⟩ := List.getElem_of_mem hx
  have hlt : mt - 1 < l.length := by omega
  have hgetD : l.getD (mt - 1) TicketIdMAX = l[mt - 1] :=
    List.getD_eq_getElem l TicketIdMAX hlt
  rw [hgetD, ← hget]
  rcases Nat.eq_or_lt_of_le (show i ≤ mt - 1 by omega) with heq | hlt2
  · subst heq; exact Nat.le_refl _
  · exact List.pairwise_iff_getElem.mp hs i (mt - 1) hi hlt hlt2


/-- One segment-consuming iteration preserves the sorter invariant and
decrements the segment count. -/
theorem sortSegmentStep_inv (mt : Nat) (A : List TicketId) (acc : SortAcc)
    (hInv : AccInv mt A acc) (hsc : 0 < acc.segCount) (hmt : 0 < mt) :
    AccInv mt A (sortSegmentStep mt acc) ∧
    (sortSegmentStep mt acc).segCount = acc.segCount - 1 := by
  have hcpos : 0 < acc.meta.unsorted_tickets_count := by
    by_contra h0
    have hz : acc.meta.unsorted_tickets_count = 0 := by omega
    rw [hInv.segCount_eq, hz] at hsc
    simp [rustDivCeil] at hsc
  have hps := packed_step hInv.packed hcpos
  simp only [← hInv.segCount_eq] at hps
  obtain ⟨htop, hle, hdec, hpacked⟩ := hps
  -- decomposition of the present multiset
  have hJsplit : segJoin acc.unsortedSegments acc.segCount =
      segJoin acc.unsortedSegments (acc.segCount - 1) ++
        acc.unsortedSegments (acc.segCount - 1) := by
    conv_lhs => rw [show acc.segCount = (acc.segCount - 1) + 1 by omega]
    exact segJoin_succ _ _
  have hpresent : present acc = acc.candidates ++
      (segJoin acc.unsortedSegments (acc.segCount - 1) ++
        acc.unsortedSegments (acc.segCount - 1)) := by
    rw [present, hJsplit]
  have hJcongr : segJoin (fun k => if k = acc.segCount - 1 then []
      else acc.unsortedSegments k) (acc.segCount - 1) =
      segJoin acc.unsortedSegments (acc.segCount - 1) :=
    segJoin_congr (fun k hk => by rw [if_neg (by omega)])
  have hcount2 : acc.meta.unsorted_tickets_count -
      (acc.unsortedSegments (acc.segCount - 1)).length =
      (segJoin acc.unsortedSegments (acc.segCount - 1)).length := by
    have h1 := hInv.count_eq
    rw [hJsplit, List.length_append] at h1
    omega
  -- names for the loop pieces
  have hpush := pushSegment_fst acc.upperBound
    (acc.unsortedSegments (acc.segCount - 1)) acc.candidates acc.ticketsData
  -- disjointness pieces of the present list
  have hnodup := hInv.nodupP
  rw [hpresent] at hnodup
  have hdisj := List.nodup_append.mp hnodup
  -- subpermutation: the filtered candidates plus the remaining segments
  -- sit inside the old present list
  have hsub1 : List.Subperm
      ((acc.candidates ++ (acc.unsortedSegments (acc.segCount - 1)).filter
          (fun id => decide (id < acc.upperBound))) ++
        segJoin acc.unsortedSegments (acc.segCount - 1))
      (present acc) := by
    rw [hpresent]
    have hp1 : List.Perm
        ((acc.candidates ++ (acc.unsortedSegments (acc.segCount - 1)).filter
            (fun id => decide (id < acc.upperBound))) ++
          segJoin acc.unsortedSegments (acc.segCount - 1))
        (acc.candidates ++
          (segJoin acc.unsortedSegments (acc.segCount - 1) ++
            (acc.unsortedSegments (acc.segCount - 1)).filter
              (fun id => decide (id < acc.upperBound)))) := by
      rw [List.append_assoc]
      exact List.Perm.append_left _ (List.perm_append_comm)
    refine hp1.subperm.trans ?_
    rw [List.subperm_append_left]
    rw [List.subperm_append_left]
    exact (List.filter_sublist _).subperm
  have hnodupP1 := subperm_nodup hsub1 hInv.nodupP
  have hsubA1 : ∀ x ∈ (acc.candidates ++
      (acc.unsortedSegments (acc.segCount - 1)).filter
        (fun id => decide (id < acc.upperBound))) ++
      segJoin acc.unsortedSegments (acc.segCount - 1), x ∈ A :=
    fun x hx => hInv.subA x (hsub1.subset hx)
  -- dropping a segment element at or above the upper bound is justified
  have hdropSeg : ∀ d ∈ A, d ∈ acc.unsortedSegments (acc.segCount - 1) →
      ¬ d < acc.upperBound →
      mt ≤ countLt acc.candidates d ∨ d = TicketIdMAX := by
    intro d hdA hdseg hdub
    rcases hInv.ubInv with hMAX | ⟨hlen, hall⟩
    · right
      have hb := hInv.boundA d hdA
      rw [hMAX] at hdub
      exact Nat.le_antisymm hb (Nat.le_of_not_lt hdub)
    · left
      have hallt : ∀ x ∈ acc.candidates, x < d := by
        intro x hx
        have hxle : x ≤ d := le_trans (hall x hx) (Nat.le_of_not_lt hdub)
        have hxne : x ≠ d := by
          intro hxeq
          subst hxeq
          exact (hdisj.2.2 hx (List.mem_append.mpr (Or.inr hdseg))).elim
        exact Nat.lt_of_le_of_ne hxle hxne
      rw [countLt_eq_length hallt, hlen]
  -- previously dropped ids stay justified after pushing
  have hmono1 : ∀ d, countLt acc.candidates d ≤
      countLt (acc.candidates ++
        (acc.unsortedSegments (acc.segCount - 1)).filter
          (fun id => decide (id < acc.upperBound))) d := by
    intro d
    rw [countLt_append]
    omega
  -- a dropped element not among the new candidates nor the remaining
  -- segments is a segment element at or above the bound, or an old drop
  have hwhere : ∀ d, d ∈ present acc →
      d ∉ acc.candidates →
      d ∉ segJoin acc.unsortedSegments (acc.segCount - 1) →
      d ∈ acc.unsortedSegments (acc.segCount - 1) := by
    intro d hdP hdc hdJ
    rw [hpresent] at hdP
    rcases List.mem_append.mp hdP with hc | hjs
    · exact absurd hc hdc
    rcases List.mem_append.mp hjs with hj | hsg
    · exact absurd hj hdJ
    exact hsg
  constructor
  case right =>
    unfold sortSegmentStep
    dsimp only
    split <;> rfl
  case left =>
    unfold sortSegmentStep
    dsimp only
    rw [hpush]
    split
    case isTrue h1 =>
      -- truncation branch
      set cands1 := acc.candidates ++
        (acc.unsortedSegments (acc.segCount - 1)).filter
          (fun id => decide (id < acc.upperBound)) with hcands1
      set sorted := List.insertionSort (· ≤ ·) cands1 with hsorted
      have hperm : List.Perm sorted cands1 := List.perm_insertionSort _ _
      have hsortsorted : sorted.Sorted (· ≤ ·) := List.sorted_insertionSort _ _
      have hnodc1 : cands1.Nodup := (List.nodup_append.mp hnodupP1).1
      have hnods : sorted.Nodup := hperm.symm.nodup hnodc1
      have hlensorted : mt < sorted.length := by
        rw [hperm.length_eq]
        exact h1
      have hkeptlen : (sorted.take mt).length = mt := by
        rw [List.length_take]
        omega
      have hkept_sorted : (sorted.take mt).Sorted (· ≤ ·) :=
        List.Pairwise.sublist (List.take_sublist _ _) hsortsorted
      have hkept_sub : List.Subperm (sorted.take mt) cands1 :=
        ((List.take_sublist _ _).subperm).trans hperm.subperm
      have hsub2 : List.Subperm
          (sorted.take mt ++ segJoin acc.unsortedSegments (acc.segCount - 1))
          (present acc) :=
        ((List.subperm_append_right _).mpr hkept_sub).trans hsub1
      -- lifting a justification on cands1 to the kept candidates
      have hlift : ∀ d, mt ≤ countLt cands1 d → mt ≤ countLt (sorted.take mt) d := by
        intro d hc
        have hcs : mt ≤ countLt sorted d := by
          rw [countLt_perm hperm]
          exact hc
        have hallt := take_lt_of_sorted_countLt sorted hsortsorted d mt hcs
        rw [countLt_eq_length hallt, hkeptlen]
      -- evicted elements are justified by the kept candidates
      have hevict : ∀ d ∈ sorted, d ∉ sorted.take mt →
          mt ≤ countLt (sorted.take mt) d := by
        intro d hds hdk
        have hddrop : d ∈ sorted.drop mt := by
          rcases List.mem_append.mp (by rw [List.take_append_drop]; exact hds :
            d ∈ sorted.take mt ++ sorted.drop mt) with h | h
          · exact absurd h hdk
          · exact h
        have hallt : ∀ x ∈ sorted.take mt, x < d := by
          intro x hx
          have hxle : x ≤ d :=
            List.Sorted.rel_of_mem_take_of_mem_drop hsortsorted hx hddrop
          have hxne : x ≠ d := by
            intro hxeq
            subst hxeq
            have hnd := hnods
            rw [← List.take_append_drop mt sorted] at hnd
            exact ((List.nodup_append.mp hnd).2.2 hx hddrop).elim
          exact Nat.lt_of_le_of_ne hxle hxne
        rw [countLt_eq_length hallt, hkeptlen]
      refine ⟨⟨hInv.nodupA, hInv.boundA, hpacked, hdec.symm, ?_, ?_, ?_, ?_, ?_⟩, ?_, ?_⟩
      · -- count_eq
        dsimp only
        rw [hJcongr]
        exact hcount2
      · -- nodupP
        unfold present
        dsimp only
        rw [hJcongr]
        exact subperm_nodup hsub2 hInv.nodupP
      · -- subA
        unfold present
        dsimp only
        rw [hJcongr]
        exact fun x hx => hInv.subA x (hsub2.subset hx)
      · -- dropJust
        unfold present
        dsimp only
        rw [hJcongr]
        intro d hdA hdnot
        have hdnotk : d ∉ sorted.take mt := fun h =>
          hdnot (List.mem_append.mpr (Or.inl h))
        have hdnotJ : d ∉ segJoin acc.unsortedSegments (acc.segCount - 1) :=
          fun h => hdnot (List.mem_append.mpr (Or.inr h))
        by_cases hdP : d ∈ present acc
        · by_cases hdc1 : d ∈ cands1
          · left
            exact hevict d (hperm.symm.subset hdc1) hdnotk
          · have hdc : d ∉ acc.candidates := fun h =>
              hdc1 (List.mem_append.mpr (Or.inl h))
            have hdseg := hwhere d hdP hdc hdnotJ
            have hdub : ¬ d < acc.upperBound := by
              intro hlt
              exact hdc1 (List.mem_append.mpr (Or.inr
                (List.mem_filter.mpr ⟨hdseg, by simpa using hlt⟩)))
            rcases hdropSeg d hdA hdseg hdub with hc | hMAX
            · left
              exact hlift d (le_trans hc (hmono1 d))
            · right
              exact hMAX
        · rcases hInv.dropJust d hdA hdP with hc | hMAX
          · left
            exact hlift d (le_trans hc (hmono1 d))
          · right
            exact hMAX
      · -- candLen
        dsimp only
        rw [hkeptlen]
      · -- ubInv
        right
        dsimp only
        refine ⟨hkeptlen, ?_⟩
        exact sorted_le_getD_last _ mt hkept_sorted hkeptlen hmt
      · -- reqSort
        intro _
        exact ⟨hkept_sorted, hkeptlen⟩
    case isFalse h1 =>
      -- no-truncation branch
      have hlen1 : (acc.candidates ++
          (acc.unsortedSegments (acc.segCount - 1)).filter
            (fun id => decide (id < acc.upperBound))).length ≤ mt :=
        Nat.le_of_not_lt h1
      have hpushednil : acc.candidates.length = mt →
          (acc.unsortedSegments (acc.segCount - 1)).filter
            (fun id => decide (id < acc.upperBound)) = [] := by
        intro hlen
        rw [List.length_append, hlen] at hlen1
        exact List.length_eq_zero.mp (by omega)
      refine ⟨⟨hInv.nodupA, hInv.boundA, hpacked, hdec.symm, ?_, ?_, ?_, ?_, ?_⟩, ?_, ?_⟩
      · -- count_eq
        dsimp only
        rw [hJcongr]
        exact hcount2
      · -- nodupP
        unfold present
        dsimp only
        rw [hJcongr]
        exact hnodupP1
      · -- subA
        unfold present
        dsimp only
        rw [hJcongr]
        exact hsubA1
      · -- dropJust
        unfold present
        dsimp only
        rw [hJcongr]
        intro d hdA hdnot
        have hdnotc1 : d ∉ acc.candidates ++
            (acc.unsortedSegments (acc.segCount - 1)).filter
              (fun id => decide (id < acc.upperBound)) := fun h =>
          hdnot (List.mem_append.mpr (Or.inl h))
        have hdnotJ : d ∉ segJoin acc.unsortedSegments (acc.segCount - 1) :=
          fun h => hdnot (List.mem_append.mpr (Or.inr h))
        by_cases hdP : d ∈ present acc
        · have hdc : d ∉ acc.candidates := fun h =>
            hdnotc1 (List.mem_append.mpr (Or.inl h))
          have hdseg := hwhere d hdP hdc hdnotJ
          have hdub : ¬ d < acc.upperBound := by
            intro hlt
            exact hdnotc1 (List.mem_append.mpr (Or.inr
              (List.mem_filter.mpr ⟨hdseg, by simpa using hlt⟩)))
          rcases hdropSeg d hdA hdseg hdub with hc | hMAX
          · left
            exact le_trans hc (hmono1 d)
          · right
            exact hMAX
        · rcases hInv.dropJust d hdA hdP with hc | hMAX
          · left
            exact le_trans hc (hmono1 d)
          · right
            exact hMAX
      · -- candLen
        exact hlen1
      · -- ubInv
        rcases hInv.ubInv with hMAX | ⟨hlen, hall⟩
        · left
          exact hMAX
        · right
          dsimp only
          rw [hpushednil hlen, List.append_nil]
          exact ⟨hlen, hall⟩
      · -- reqSort
        intro hrs
        obtain ⟨hsorted2, hlen⟩ := hInv.reqSort hrs
        dsimp only
        rw [hpushednil hlen, List.append_nil]
        exact ⟨hsorted2, hlen⟩


/-- The segment loop preserves the sorter invariant as long as the fuel
does not exceed the available segments, consuming exactly one segment
per iteration. -/
theorem sortLoop_inv (mt : Nat) (A : List TicketId) (hmt : 0 < mt) :
    ∀ (n : Nat) (acc : SortAcc), AccInv mt A acc → n ≤ acc.segCount →
      AccInv mt A (sortLoop mt n acc) ∧
      (sortLoop mt n acc).segCount = acc.segCount - n := by
  intro n
  induction n with
  | zero =>
    intro acc h _
    exact ⟨h, by simp [sortLoop]⟩
  | succ m ih =>
    intro acc h hn
    have hstep := sortSegmentStep_inv mt A acc h (by omega) hmt
    rw [sortLoop]
    obtain ⟨h2, hsc2⟩ := ih (sortSegmentStep mt acc) hstep.1 (by omega)
    refine ⟨h2, ?_⟩
    rw [hsc2, hstep.2]
    omega

/-- `setCount` does not change the unsorted counter. -/
theorem setCount_unsorted (m : TicketsMetadata) (t n : Nat) :
    (m.setCount t n).unsorted_tickets_count = m.unsorted_tickets_count := by
  unfold TicketsMetadata.setCount
  split <;> rfl

/-- `setCount` writes the requested count. -/
theorem setCount_ticketsCount_self (m : TicketsMetadata) (t n : Nat) :
    (m.setCount t n).ticketsCount t = n := by
  by_cases h : t = 0 <;>
    simp [TicketsMetadata.setCount, TicketsMetadata.ticketsCount, h]

/-- Reading a list through `get?` along its index range is the list of
its elements. -/
theorem range_map_get (l : List TicketId) :
    (List.range l.length).map (fun i => l.get? i) = l.map some := by
  apply List.ext_get
  · simp
  · intro i h1 h2
    rw [List.length_map, List.length_range] at h1
    simp [List.get?_eq_get, h1]


/-- Specification of the tail of `sort_tickets`: under the loop
invariant (with sorted final candidates), an incomplete call preserves
the cross-call invariant on the persisted state, and a completed call
writes a strictly increasing initial run of the sorted admitted ids. -/
theorem sortFinish_spec (c : Config) (epochTag : Nat) (st1 : PalletState)
    (acc : SortAcc) (A : List TicketId)
    (hPost : PostInv c.maxTickets A acc)
    (hsorted : (if acc.requireSort then List.insertionSort (· ≤ ·) acc.candidates
        else acc.candidates).Sorted (· ≤ ·)) :
    ((sortFinish c epochTag st1 acc).2.unsorted_tickets_count ≠ 0 →
      SortInv c A { (sortFinish c epochTag st1 acc).1 with
        ticketsMeta := (sortFinish c epochTag st1 acc).2 }) ∧
    ((sortFinish c epochTag st1 acc).2.unsorted_tickets_count = 0 →
      (sortFinish c epochTag st1 acc).2.ticketsCount epochTag ≤ c.epochLength ∧
      (List.range ((sortFinish c epochTag st1 acc).2.ticketsCount epochTag)).map
          (fun i => (sortFinish c epochTag st1 acc).1.ticketsIds epochTag i) =
        ((List.insertionSort (· ≤ ·) A).take
            ((sortFinish c epochTag st1 acc).2.ticketsCount epochTag)).map some ∧
      ((List.insertionSort (· ≤ ·) A).take
          ((sortFinish c epochTag st1 acc).2.ticketsCount epochTag)).Sorted (· < ·)) := by
  unfold sortFinish
  dsimp only
  generalize hc : (if acc.requireSort = true
      then List.insertionSort (· ≤ ·) acc.candidates
      else acc.candidates) = candsF at hsorted ⊢
  have hpermF : List.Perm candsF acc.candidates := by
    rw [← hc]
    cases hb : acc.requireSort
    · rw [if_neg (by simp)]
    · rw [if_pos rfl]
      exact List.perm_insertionSort _ _
  have hlenF : candsF.length = acc.candidates.length := hpermF.length_eq
  have hcountF : ∀ d, countLt candsF d = countLt acc.candidates d :=
    fun d => countLt_perm hpermF d
  split
  case isTrue hz =>
    -- sorting is complete: the candidates are flushed
    have hnil : segJoin acc.unsortedSegments acc.segCount = [] := by
      have h1 := hPost.count_eq
      rw [hz] at h1
      exact List.length_eq_zero.mp h1.symm
    have hmemP : ∀ x, x ∈ present acc ↔ x ∈ acc.candidates := by
      intro x
      unfold present
      rw [hnil, List.append_nil]
    have hndF : candsF.Nodup := by
      refine hpermF.symm.nodup ?_
      have h1 := hPost.nodupP
      unfold present at h1
      rw [hnil, List.append_nil] at h1
      exact h1
    have hsubF : ∀ x ∈ candsF, x ∈ A := fun x hx =>
      hPost.subA x ((hmemP x).mpr (hpermF.subset hx))
    have hltF : ∀ x ∈ candsF, ∀ d ∈ A, d ∉ candsF → x < d := by
      intro x hx d hdA hdF
      have hdP : d ∉ present acc := fun h =>
        hdF (hpermF.symm.subset ((hmemP d).mp h))
      rcases hPost.dropJust d hdA hdP with hcnt | hMAX
      · refine all_lt_of_countLt ?_ x hx
        rw [hcountF d, hlenF]
        exact le_trans hPost.candLen hcnt
      · subst hMAX
        have hxle := hPost.boundA x (hsubF x hx)
        have hxne : x ≠ TicketIdMAX := fun hxe => hdF (hxe ▸ hx)
        exact Nat.lt_of_le_of_ne hxle hxne
    have hfinal : candsF = (List.insertionSort (· ≤ ·) A).take candsF.length :=
      final_take_eq A candsF hPost.nodupA hndF hsubF hsorted hltF
    constructor
    · intro hne
      exact absurd (by rw [setCount_unsorted]; exact hz) hne
    · intro _
      rw [setCount_ticketsCount_self]
      refine ⟨?_, ?_, ?_⟩
      · rw [hlenF]
        exact le_trans hPost.candLen (Nat.min_le_left _ _)
      · have hmap : (List.range candsF.length).map
            (fun i => if epochTag = epochTag ∧ (candsF.get? i).isSome = true
              then candsF.get? i else st1.ticketsIds epochTag i) =
            (List.range candsF.length).map (fun i => candsF.get? i) := by
          apply List.map_congr_left
          intro i hi
          have hlt : i < candsF.length := List.mem_range.mp hi
          have hsome : (candsF.get? i).isSome = true := by
            rw [List.get?_eq_get hlt]
            rfl
          rw [if_pos ⟨rfl, hsome⟩]
        have hfinal2 : candsF.map some =
            ((List.insertionSort (· ≤ ·) A).take candsF.length).map some := by
          conv_lhs => rw [hfinal]
        rw [hmap, range_map_get candsF, hfinal2]
      · rw [← hfinal]
        exact List.Sorted.lt_of_le hsorted hndF
  case isFalse hnz =>
    constructor
    · intro _
      have htake : candsF.take c.maxTickets = candsF :=
        List.take_of_length_le (by rw [hlenF]; exact hPost.candLen)
      have hpresent2 : stPresent { st1 with
          ticketsData := acc.ticketsData
          unsortedSegments := acc.unsortedSegments
          sortedCandidates := candsF.take c.maxTickets
          ticketsMeta := acc.meta } =
          candsF ++ segJoin acc.unsortedSegments acc.segCount := by
        unfold stPresent
        dsimp only
        rw [htake, ← hPost.segCount_eq]
      have hperm2 : List.Perm (candsF ++ segJoin acc.unsortedSegments acc.segCount)
          (present acc) :=
        hpermF.append_right _
      refine ⟨hPost.nodupA, hPost.boundA, hPost.packed, ?_, ?_, ?_, ?_, ?_⟩
      · rw [hpresent2]
        exact hperm2.symm.nodup hPost.nodupP
      · rw [hpresent2]
        exact fun x hx => hPost.subA x (hperm2.subset hx)
      · rw [hpresent2]
        dsimp only
        intro d hdA hdP
        rw [htake, hcountF d]
        exact hPost.dropJust d hdA (fun h => hdP (hperm2.symm.subset h))
      · dsimp only
        rw [htake, hlenF]
        exact hPost.candLen
      · dsimp only
        rw [htake]
        exact hsorted
    · intro hzz
      exact absurd hzz hnz


/-- C7: for every sequence of `sort_tickets` calls over distinct
admitted ticket ids (captured by the cross-call invariant `SortInv`,
which holds of a freshly appended state and is re-established by every
incomplete call): whenever a call ends with `unsorted_tickets_count = 0`,
the written entries `TicketsIds[(epoch_tag, 0..n)]` with
`n = tickets_count[epoch_tag]` are exactly the `n` smallest admitted
ids in strictly increasing order, with `n` at most `EpochLength`. -/
theorem sort_tickets_sorted_smallest (c : Config) (maxSegments epochTag : Nat)
    (st : PalletState) (A : List TicketId) (hL : 0 < c.epochLength)
    (hInv : SortInv c A st) :
    ((sortTickets c maxSegments epochTag st st.ticketsMeta).2.unsorted_tickets_count ≠ 0 →
      SortInv c A { (sortTickets c maxSegments epochTag st st.ticketsMeta).1 with
        ticketsMeta := (sortTickets c maxSegments epochTag st st.ticketsMeta).2 }) ∧
    ((sortTickets c maxSegments epochTag st st.ticketsMeta).2.unsorted_tickets_count = 0 →
      (sortTickets c maxSegments epochTag st st.ticketsMeta).2.ticketsCount epochTag ≤
        c.epochLength ∧
      (List.range ((sortTickets c maxSegments epochTag st
          st.ticketsMeta).2.ticketsCount epochTag)).map
          (fun i => (sortTickets c maxSegments epochTag st
            st.ticketsMeta).1.ticketsIds epochTag i) =
        ((List.insertionSort (· ≤ ·) A).take
            ((sortTickets c maxSegments epochTag st
              st.ticketsMeta).2.ticketsCount epochTag)).map some ∧
      ((List.insertionSort (· ≤ ·) A).take
          ((sortTickets c maxSegments epochTag st
            st.ticketsMeta).2.ticketsCount epochTag)).Sorted (· < ·)) := by
  have hmt : 0 < c.maxTickets :=
    Nat.lt_min.mpr ⟨hL, by norm_num [u32MAX]⟩
  have hcount0 : st.ticketsMeta.unsorted_tickets_count =
      (segJoin st.unsortedSegments
        (rustDivCeil st.ticketsMeta.unsorted_tickets_count SEGMENT_MAX_SIZE)).length :=
    (packed_segJoin_length _ _ hInv.packed).symm
  unfold sortTickets
  dsimp only
  by_cases hms : min maxSegments
      (rustDivCeil st.ticketsMeta.unsorted_tickets_count SEGMENT_MAX_SIZE) = 0
  · -- the loop consumes nothing: the candidates pass through unchanged
    rw [hms]
    simp only [sortLoop]
    have hreq : (sortAcc0 c maxSegments st st.ticketsMeta).requireSort = false := by
      simp [sortAcc0, hms]
    have hPost0 : PostInv c.maxTickets A (sortAcc0 c maxSegments st st.ticketsMeta) :=
      ⟨hInv.nodupA, hInv.boundA, hInv.packed, rfl, hcount0,
       hInv.nodupP, hInv.subA, hInv.dropJust, hInv.candLen⟩
    have hsorted0 : (if (sortAcc0 c maxSegments st st.ticketsMeta).requireSort
        then List.insertionSort (· ≤ ·)
          (sortAcc0 c maxSegments st st.ticketsMeta).candidates
        else (sortAcc0 c maxSegments st st.ticketsMeta).candidates).Sorted (· ≤ ·) := by
      rw [hreq]
      rw [if_neg (by simp)]
      exact hInv.candSorted
    exact sortFinish_spec c epochTag _ _ A hPost0 hsorted0
  · -- the loop runs: establish and carry the full invariant
    have hAcc0 : AccInv c.maxTickets A (sortAcc0 c maxSegments st st.ticketsMeta) := by
      refine ⟨⟨hInv.nodupA, hInv.boundA, hInv.packed, rfl, hcount0,
        hInv.nodupP, hInv.subA, hInv.dropJust, hInv.candLen⟩, ?_, ?_⟩
      · by_cases hfull : st.sortedCandidates.length = c.maxTickets
        · right
          exact ⟨hfull, sorted_le_getD_last st.sortedCandidates c.maxTickets
            hInv.candSorted hfull hmt⟩
        · left
          have hlt : st.sortedCandidates.length ≤ c.maxTickets - 1 := by
            have h1 := hInv.candLen
            omega
          exact List.getD_eq_default _ _ hlt
      · intro h
        exfalso
        have h2 : ¬ min maxSegments
            (rustDivCeil st.ticketsMeta.unsorted_tickets_count SEGMENT_MAX_SIZE) ≠ 0 := by
          simpa [sortAcc0] using congrArg (fun b => b = false) h
        exact h2 (fun hzz => hms hzz)
    have hloop := sortLoop_inv c.maxTickets A hmt
      (min maxSegments (rustDivCeil st.ticketsMeta.unsorted_tickets_count SEGMENT_MAX_SIZE))
      (sortAcc0 c maxSegments st st.ticketsMeta) hAcc0 (Nat.min_le_right _ _)
    have hsortedL : (if (sortLoop c.maxTickets
        (min maxSegments (rustDivCeil st.ticketsMeta.unsorted_tickets_count SEGMENT_MAX_SIZE))
        (sortAcc0 c maxSegments st st.ticketsMeta)).requireSort
        then List.insertionSort (· ≤ ·) (sortLoop c.maxTickets
          (min maxSegments (rustDivCeil st.ticketsMeta.unsorted_tickets_count SEGMENT_MAX_SIZE))
          (sortAcc0 c maxSegments st st.ticketsMeta)).candidates
        else (sortLoop c.maxTickets
          (min maxSegments (rustDivCeil st.ticketsMeta.unsorted_tickets_count SEGMENT_MAX_SIZE))
          (sortAcc0 c maxSegments st st.ticketsMeta)).candidates).Sorted (· ≤ ·) := by
      cases hb : (sortLoop c.maxTickets
          (min maxSegments (rustDivCeil st.ticketsMeta.unsorted_tickets_count SEGMENT_MAX_SIZE))
          (sortAcc0 c maxSegments st st.ticketsMeta)).requireSort
      · rw [if_neg (by simp)]
        exact (hloop.1.reqSort hb).1
      · rw [if_pos rfl]
        exact List.sorted_insertionSort _ _
    exact sortFinish_spec c epochTag _ _ A hloop.1.toPostInv hsortedL


/-- Concrete state for the C7 witness: one unsorted segment holding the
distinct admitted ids `[3, 1, 2]`, no candidates, `EpochLength = 4`. -/
def c7State : PalletState := { stZero with
  ticketsMeta := { unsorted_tickets_count := 3, tickets_count0 := 0, tickets_count1 := 0 }
  unsortedSegments := fun k => if k = 0 then [3, 1, 2] else [] }

/-- The cross-call sorter invariant holds of the concrete appended
state `c7State` with admitted ids `[3, 1, 2]`. -/
theorem c7State_inv : SortInv ⟨4⟩ [3, 1, 2] c7State := by
  refine ⟨by decide, by decide, ⟨?_, by decide, ?_⟩, by decide, by decide,
    by decide, by decide, by decide⟩
  · intro k hk
    have h0 : c7State.ticketsMeta.unsorted_tickets_count / SEGMENT_MAX_SIZE = 0 := by decide
    rw [h0] at hk
    exact absurd hk (Nat.not_lt_zero k)
  · intro k hk
    have hne : k ≠ 0 := by
      simp only [SEGMENT_MAX_SIZE] at hk
      omega
    simp [c7State, stZero, hne]

/-- Witness for C7: sorting the single segment `[3, 1, 2]` to
completion writes `TicketsIds[(1, 0..2)] = [1, 2, 3]`, a strictly
increasing run of the three smallest admitted ids, with count `3 ≤ 4 =
EpochLength`. -/
theorem sort_tickets_sorted_smallest_witness :
    (sortTickets ⟨4⟩ u32MAX 1 c7State c7State.ticketsMeta).2.unsorted_tickets_count = 0 ∧
    ((sortTickets ⟨4⟩ u32MAX 1 c7State c7State.ticketsMeta).2.ticketsCount 1 ≤ (4 : Nat) ∧
     (List.range ((sortTickets ⟨4⟩ u32MAX 1 c7State
         c7State.ticketsMeta).2.ticketsCount 1)).map
         (fun i => (sortTickets ⟨4⟩ u32MAX 1 c7State
           c7State.ticketsMeta).1.ticketsIds 1 i) =
       ((List.insertionSort (· ≤ ·) [3, 1, 2]).take
           ((sortTickets ⟨4⟩ u32MAX 1 c7State
             c7State.ticketsMeta).2.ticketsCount 1)).map some ∧
     ((List.insertionSort (· ≤ ·) [3, 1, 2]).take
         ((sortTickets ⟨4⟩ u32MAX 1 c7State
           c7State.ticketsMeta).2.ticketsCount 1)).Sorted (· < ·)) ∧
    (sortTickets ⟨4⟩ u32MAX 1 c7State c7State.ticketsMeta).1.ticketsIds 1 0 = some 1 ∧
    (sortTickets ⟨4⟩ u32MAX 1 c7State c7State.ticketsMeta).1.ticketsIds 1 1 = some 2 ∧
    (sortTickets ⟨4⟩ u32MAX 1 c7State c7State.ticketsMeta).1.ticketsIds 1 2 = some 3 :=
  ⟨by decide,
   (sort_tickets_sorted_smallest ⟨4⟩ u32MAX 1 c7State [3, 1, 2]
     (by decide) c7State_inv).2 (by decide),
   by decide, by decide, by decide⟩

end Sassafras
